import Mathlib

/-!
Accessibility analyzer: the analysis pipeline of `backend/server.js` and the client's
formatting of its report.

A shallow embedding of the Express backend: the helper functions (score
computation, violation categorisation, severity mapping, WCAG level
extraction), the auth middleware, and the handlers of the protected routes
over an explicit database state, with the browser, the rule engine, the
token library and the URL parser as parameters; followed by theorems about
them.

JavaScript numbers are IEEE-754 binary64 values.  The score is computed as
`Math.round((passedChecks / totalChecks) * 100)`, so the two roundings of the
quotient and of the product are modelled exactly: a non-negative finite
double is a pair `m * 2 ^ e`, and `roundToDouble` is round-to-nearest,
ties-to-even, on an exact fraction.
-/

namespace AccessibilityAnalyzer

/-! ## Definitions -/

/-! ### IEEE-754 binary64 arithmetic on non-negative values -/

/-- A non-negative finite binary64 value, `m * 2 ^ e`. -/
structure Double where
  m : Nat
  e : Int
deriving DecidableEq

/-- The exact rational value of a double. -/
def Double.toRat (x : Double) : ℚ := (x.m : ℚ) * (2 : ℚ) ^ x.e

/-- Binary logarithm rounded down, by repeated halving; `fuel` bounds the number of halvings. -/
def log2Aux : Nat → Nat → Nat
  | 0, _ => 0
  | fuel + 1, n => if 2 ≤ n then log2Aux fuel (n / 2) + 1 else 0

/-- The position of the leading bit of `n`:
`2 ^ floorLog2 n ≤ n < 2 ^ (floorLog2 n + 1)` for `0 < n`. -/
def floorLog2 (n : Nat) : Nat := log2Aux n n

/-- The binary exponent of the positive fraction `a / b`:
the integer `k` with `2 ^ k ≤ a / b < 2 ^ (k + 1)`. -/
def binade (a b : Nat) : Int :=
  let d : Int := (floorLog2 a : Int) - (floorLog2 b : Int)
  if b * 2 ^ floorLog2 a ≤ a * 2 ^ floorLog2 b then d else d - 1

/-- The integer nearest to `num / den`, ties to the even one. -/
def roundHalfEven (num den : Nat) : Nat :=
  let q := num / den
  let r := num % den
  if 2 * r < den then q else if den < 2 * r then q + 1
  else if q % 2 = 0 then q else q + 1

/-- Round the exact fraction `a / b` (`0 < b`) to the nearest binary64 value, ties to even:
53 significant bits, exponent not below the subnormal exponent `-1022`, so the unit in the
last place is `2 ^ (-s)` with `s = 52 - max (binade a b) (-1022)`.
Overflow is not modelled; every value rounded in this development is at most `100`. -/
def roundToDouble (a b : Nat) : Double :=
  if a = 0 then ⟨0, 0⟩ else
  let s := 52 - max (binade a b) (-1022)
  if 0 ≤ s then ⟨roundHalfEven (a * 2 ^ s.toNat) b, -s⟩
  else ⟨roundHalfEven a (b * 2 ^ (-s).toNat), -s⟩

/-- The double division `a / b` of two exactly represented non-negative integers. -/
def fdiv (a b : Nat) : Double := roundToDouble a b

/-- The double product `x * k` of a double and an exactly represented non-negative integer. -/
def fmul (x : Double) (k : Nat) : Double :=
  if 0 ≤ x.e then roundToDouble (x.m * k * 2 ^ x.e.toNat) 1
  else roundToDouble (x.m * k) (2 ^ (-x.e).toNat)

/-- The function `Math.round` on a non-negative double: the nearest integer, halves towards `+∞`,
that is `⌊x + 1/2⌋` computed exactly. -/
def mathRound (x : Double) : Int :=
  if 0 ≤ x.e then ((x.m * 2 ^ x.e.toNat : Nat) : Int)
  else (((2 * x.m + 2 ^ (-x.e).toNat) / 2 ^ ((-x.e).toNat + 1) : Nat) : Int)

/-! ### Raw audit results -/

/-- An affected DOM node of a finding. -/
structure Node where
  html : Option String
  target : List String
deriving DecidableEq

/-- One finding of the rule engine (a violation, pass, incomplete or inapplicable result).
`impact` is `none` when the engine reports `null` or omits it. -/
structure Finding where
  id : String
  impact : Option String
  tags : List String
  description : String
  help : String
  helpUrl : String
  nodes : List Node
deriving DecidableEq

/-- The object returned by `axe.run`. -/
structure AxeResults where
  violations : List Finding
  passes : List Finding
  incomplete : List Finding
  inapplicable : List Finding
deriving DecidableEq

/-- The value `totalChecks` of the `/api/analyze` handler. -/
def totalChecks (r : AxeResults) : Nat :=
  r.violations.length + r.passes.length + r.incomplete.length

/-- The value `passedChecks` of the `/api/analyze` handler. -/
def passedChecks (r : AxeResults) : Nat := r.passes.length

/-- The value `score` of the `/api/analyze` handler:
`totalChecks > 0 ? Math.round((passedChecks / totalChecks) * 100) : 0`. -/
def score (r : AxeResults) : Int :=
  if totalChecks r > 0 then mathRound (fmul (fdiv (passedChecks r) (totalChecks r)) 100) else 0

/-- The `summary` object of the `/api/analyze` handler. -/
structure Summary where
  totalViolations : Nat
  totalPasses : Nat
  totalIncomplete : Nat
  totalInapplicable : Nat
  totalChecks : Nat
  passedChecks : Nat
  score : Int
deriving DecidableEq

/-- The `summary` built by the `/api/analyze` handler. -/
def summary (r : AxeResults) : Summary :=
  { totalViolations := r.violations.length
    totalPasses := r.passes.length
    totalIncomplete := r.incomplete.length
    totalInapplicable := r.inapplicable.length
    totalChecks := totalChecks r
    passedChecks := passedChecks r
    score := score r }

/-! ### Strings -/

/-- Whether the characters `pat` occur contiguously in `s`. -/
def includesChars : List Char → List Char → Bool
  | [], pat => pat.isEmpty
  | c :: cs, pat => pat.isPrefixOf (c :: cs) || includesChars cs pat

/-- The method `String.prototype.includes` with a search string. -/
def includes (s pat : String) : Bool := includesChars s.data pat.data

/-- The code points whose upper case has more than one code point, each with that upper case:
the unconditional entries of `SpecialCasing.txt` of the Unicode Character Database
(version 14.0).  The first entry is U+00DF, the sharp s, with the upper case `SS`. -/
def specialUpperCase : List (Nat × List Nat) :=
  [(0xDF, [0x53, 0x53]), (0x149, [0x2BC, 0x4E]), (0x1F0, [0x4A, 0x30C]),
   (0x390, [0x399, 0x308, 0x301]), (0x3B0, [0x3A5, 0x308, 0x301]), (0x587, [0x535, 0x552]),
   (0x1E96, [0x48, 0x331]), (0x1E97, [0x54, 0x308]), (0x1E98, [0x57, 0x30A]),
   (0x1E99, [0x59, 0x30A]), (0x1E9A, [0x41, 0x2BE]), (0x1F50, [0x3A5, 0x313]),
   (0x1F52, [0x3A5, 0x313, 0x300]), (0x1F54, [0x3A5, 0x313, 0x301]),
   (0x1F56, [0x3A5, 0x313, 0x342]), (0x1F80, [0x1F08, 0x399]), (0x1F81, [0x1F09, 0x399]),
   (0x1F82, [0x1F0A, 0x399]), (0x1F83, [0x1F0B, 0x399]), (0x1F84, [0x1F0C, 0x399]),
   (0x1F85, [0x1F0D, 0x399]), (0x1F86, [0x1F0E, 0x399]), (0x1F87, [0x1F0F, 0x399]),
   (0x1F88, [0x1F08, 0x399]), (0x1F89, [0x1F09, 0x399]), (0x1F8A, [0x1F0A, 0x399]),
   (0x1F8B, [0x1F0B, 0x399]), (0x1F8C, [0x1F0C, 0x399]), (0x1F8D, [0x1F0D, 0x399]),
   (0x1F8E, [0x1F0E, 0x399]), (0x1F8F, [0x1F0F, 0x399]), (0x1F90, [0x1F28, 0x399]),
   (0x1F91, [0x1F29, 0x399]), (0x1F92, [0x1F2A, 0x399]), (0x1F93, [0x1F2B, 0x399]),
   (0x1F94, [0x1F2C, 0x399]), (0x1F95, [0x1F2D, 0x399]), (0x1F96, [0x1F2E, 0x399]),
   (0x1F97, [0x1F2F, 0x399]), (0x1F98, [0x1F28, 0x399]), (0x1F99, [0x1F29, 0x399]),
   (0x1F9A, [0x1F2A, 0x399]), (0x1F9B, [0x1F2B, 0x399]), (0x1F9C, [0x1F2C, 0x399]),
   (0x1F9D, [0x1F2D, 0x399]), (0x1F9E, [0x1F2E, 0x399]), (0x1F9F, [0x1F2F, 0x399]),
   (0x1FA0, [0x1F68, 0x399]), (0x1FA1, [0x1F69, 0x399]), (0x1FA2, [0x1F6A, 0x399]),
   (0x1FA3, [0x1F6B, 0x399]), (0x1FA4, [0x1F6C, 0x399]), (0x1FA5, [0x1F6D, 0x399]),
   (0x1FA6, [0x1F6E, 0x399]), (0x1FA7, [0x1F6F, 0x399]), (0x1FA8, [0x1F68, 0x399]),
   (0x1FA9, [0x1F69, 0x399]), (0x1FAA, [0x1F6A, 0x399]), (0x1FAB, [0x1F6B, 0x399]),
   (0x1FAC, [0x1F6C, 0x399]), (0x1FAD, [0x1F6D, 0x399]), (0x1FAE, [0x1F6E, 0x399]),
   (0x1FAF, [0x1F6F, 0x399]), (0x1FB2, [0x1FBA, 0x399]), (0x1FB3, [0x391, 0x399]),
   (0x1FB4, [0x386, 0x399]), (0x1FB6, [0x391, 0x342]), (0x1FB7, [0x391, 0x342, 0x399]),
   (0x1FBC, [0x391, 0x399]), (0x1FC2, [0x1FCA, 0x399]), (0x1FC3, [0x397, 0x399]),
   (0x1FC4, [0x389, 0x399]), (0x1FC6, [0x397, 0x342]), (0x1FC7, [0x397, 0x342, 0x399]),
   (0x1FCC, [0x397, 0x399]), (0x1FD2, [0x399, 0x308, 0x300]), (0x1FD3, [0x399, 0x308, 0x301]),
   (0x1FD6, [0x399, 0x342]), (0x1FD7, [0x399, 0x308, 0x342]), (0x1FE2, [0x3A5, 0x308, 0x300]),
   (0x1FE3, [0x3A5, 0x308, 0x301]), (0x1FE4, [0x3A1, 0x313]), (0x1FE6, [0x3A5, 0x342]),
   (0x1FE7, [0x3A5, 0x308, 0x342]), (0x1FF2, [0x1FFA, 0x399]), (0x1FF3, [0x3A9, 0x399]),
   (0x1FF4, [0x38F, 0x399]), (0x1FF6, [0x3A9, 0x342]), (0x1FF7, [0x3A9, 0x342, 0x399]),
   (0x1FFC, [0x3A9, 0x399]), (0xFB00, [0x46, 0x46]), (0xFB01, [0x46, 0x49]),
   (0xFB02, [0x46, 0x4C]), (0xFB03, [0x46, 0x46, 0x49]), (0xFB04, [0x46, 0x46, 0x4C]),
   (0xFB05, [0x53, 0x54]), (0xFB06, [0x53, 0x54]), (0xFB13, [0x544, 0x546]),
   (0xFB14, [0x544, 0x535]), (0xFB15, [0x544, 0x53B]), (0xFB16, [0x54E, 0x546]),
   (0xFB17, [0x544, 0x53D])]

/-- The code points whose upper case is one other code point (`UnicodeData.txt`, version 14.0),
in runs: `(first, last, step, upper)` stands for the code points `first`, `first + step`, up to
`last`, and the code point `first + k` of the run has the upper case `upper + k`.  The first
run is `a` to `z`. -/
def simpleUpperCase : List (Nat × Nat × Nat × Nat) :=
  [(0x61, 0x7A, 1, 0x41), (0xB5, 0xB5, 1, 0x39C), (0xE0, 0xF6, 1, 0xC0), (0xF8, 0xFE, 1, 0xD8),
   (0xFF, 0xFF, 1, 0x178), (0x101, 0x12F, 2, 0x100), (0x131, 0x131, 1, 0x49),
   (0x133, 0x137, 2, 0x132), (0x13A, 0x148, 2, 0x139), (0x14B, 0x177, 2, 0x14A),
   (0x17A, 0x17E, 2, 0x179), (0x17F, 0x17F, 1, 0x53), (0x180, 0x180, 1, 0x243),
   (0x183, 0x185, 2, 0x182), (0x188, 0x188, 1, 0x187), (0x18C, 0x18C, 1, 0x18B),
   (0x192, 0x192, 1, 0x191), (0x195, 0x195, 1, 0x1F6), (0x199, 0x199, 1, 0x198),
   (0x19A, 0x19A, 1, 0x23D), (0x19E, 0x19E, 1, 0x220), (0x1A1, 0x1A5, 2, 0x1A0),
   (0x1A8, 0x1A8, 1, 0x1A7), (0x1AD, 0x1AD, 1, 0x1AC), (0x1B0, 0x1B0, 1, 0x1AF),
   (0x1B4, 0x1B6, 2, 0x1B3), (0x1B9, 0x1B9, 1, 0x1B8), (0x1BD, 0x1BD, 1, 0x1BC),
   (0x1BF, 0x1BF, 1, 0x1F7), (0x1C5, 0x1C5, 1, 0x1C4), (0x1C6, 0x1C6, 1, 0x1C4),
   (0x1C8, 0x1C8, 1, 0x1C7), (0x1C9, 0x1C9, 1, 0x1C7), (0x1CB, 0x1CB, 1, 0x1CA),
   (0x1CC, 0x1CC, 1, 0x1CA), (0x1CE, 0x1DC, 2, 0x1CD), (0x1DD, 0x1DD, 1, 0x18E),
   (0x1DF, 0x1EF, 2, 0x1DE), (0x1F2, 0x1F2, 1, 0x1F1), (0x1F3, 0x1F3, 1, 0x1F1),
   (0x1F5, 0x1F5, 1, 0x1F4), (0x1F9, 0x21F, 2, 0x1F8), (0x223, 0x233, 2, 0x222),
   (0x23C, 0x23C, 1, 0x23B), (0x23F, 0x240, 1, 0x2C7E), (0x242, 0x242, 1, 0x241),
   (0x247, 0x24F, 2, 0x246), (0x250, 0x250, 1, 0x2C6F), (0x251, 0x251, 1, 0x2C6D),
   (0x252, 0x252, 1, 0x2C70), (0x253, 0x253, 1, 0x181), (0x254, 0x254, 1, 0x186),
   (0x256, 0x257, 1, 0x189), (0x259, 0x259, 1, 0x18F), (0x25B, 0x25B, 1, 0x190),
   (0x25C, 0x25C, 1, 0xA7AB), (0x260, 0x260, 1, 0x193), (0x261, 0x261, 1, 0xA7AC),
   (0x263, 0x263, 1, 0x194), (0x265, 0x265, 1, 0xA78D), (0x266, 0x266, 1, 0xA7AA),
   (0x268, 0x268, 1, 0x197), (0x269, 0x269, 1, 0x196), (0x26A, 0x26A, 1, 0xA7AE),
   (0x26B, 0x26B, 1, 0x2C62), (0x26C, 0x26C, 1, 0xA7AD), (0x26F, 0x26F, 1, 0x19C),
   (0x271, 0x271, 1, 0x2C6E), (0x272, 0x272, 1, 0x19D), (0x275, 0x275, 1, 0x19F),
   (0x27D, 0x27D, 1, 0x2C64), (0x280, 0x280, 1, 0x1A6), (0x282, 0x282, 1, 0xA7C5),
   (0x283, 0x283, 1, 0x1A9), (0x287, 0x287, 1, 0xA7B1), (0x288, 0x288, 1, 0x1AE),
   (0x289, 0x289, 1, 0x244), (0x28A, 0x28B, 1, 0x1B1), (0x28C, 0x28C, 1, 0x245),
   (0x292, 0x292, 1, 0x1B7), (0x29D, 0x29D, 1, 0xA7B2), (0x29E, 0x29E, 1, 0xA7B0),
   (0x345, 0x345, 1, 0x399), (0x371, 0x373, 2, 0x370), (0x377, 0x377, 1, 0x376),
   (0x37B, 0x37D, 1, 0x3FD), (0x3AC, 0x3AC, 1, 0x386), (0x3AD, 0x3AF, 1, 0x388),
   (0x3B1, 0x3C1, 1, 0x391), (0x3C2, 0x3C2, 1, 0x3A3), (0x3C3, 0x3CB, 1, 0x3A3),
   (0x3CC, 0x3CC, 1, 0x38C), (0x3CD, 0x3CE, 1, 0x38E), (0x3D0, 0x3D0, 1, 0x392),
   (0x3D1, 0x3D1, 1, 0x398), (0x3D5, 0x3D5, 1, 0x3A6), (0x3D6, 0x3D6, 1, 0x3A0),
   (0x3D7, 0x3D7, 1, 0x3CF), (0x3D9, 0x3EF, 2, 0x3D8), (0x3F0, 0x3F0, 1, 0x39A),
   (0x3F1, 0x3F1, 1, 0x3A1), (0x3F2, 0x3F2, 1, 0x3F9), (0x3F3, 0x3F3, 1, 0x37F),
   (0x3F5, 0x3F5, 1, 0x395), (0x3F8, 0x3F8, 1, 0x3F7), (0x3FB, 0x3FB, 1, 0x3FA),
   (0x430, 0x44F, 1, 0x410), (0x450, 0x45F, 1, 0x400), (0x461, 0x481, 2, 0x460),
   (0x48B, 0x4BF, 2, 0x48A), (0x4C2, 0x4CE, 2, 0x4C1), (0x4CF, 0x4CF, 1, 0x4C0),
   (0x4D1, 0x52F, 2, 0x4D0), (0x561, 0x586, 1, 0x531), (0x10D0, 0x10FA, 1, 0x1C90),
   (0x10FD, 0x10FF, 1, 0x1CBD), (0x13F8, 0x13FD, 1, 0x13F0), (0x1C80, 0x1C80, 1, 0x412),
   (0x1C81, 0x1C81, 1, 0x414), (0x1C82, 0x1C82, 1, 0x41E), (0x1C83, 0x1C84, 1, 0x421),
   (0x1C85, 0x1C85, 1, 0x422), (0x1C86, 0x1C86, 1, 0x42A), (0x1C87, 0x1C87, 1, 0x462),
   (0x1C88, 0x1C88, 1, 0xA64A), (0x1D79, 0x1D79, 1, 0xA77D), (0x1D7D, 0x1D7D, 1, 0x2C63),
   (0x1D8E, 0x1D8E, 1, 0xA7C6), (0x1E01, 0x1E95, 2, 0x1E00), (0x1E9B, 0x1E9B, 1, 0x1E60),
   (0x1EA1, 0x1EFF, 2, 0x1EA0), (0x1F00, 0x1F07, 1, 0x1F08), (0x1F10, 0x1F15, 1, 0x1F18),
   (0x1F20, 0x1F27, 1, 0x1F28), (0x1F30, 0x1F37, 1, 0x1F38), (0x1F40, 0x1F45, 1, 0x1F48),
   (0x1F51, 0x1F57, 2, 0x1F59), (0x1F60, 0x1F67, 1, 0x1F68), (0x1F70, 0x1F71, 1, 0x1FBA),
   (0x1F72, 0x1F75, 1, 0x1FC8), (0x1F76, 0x1F77, 1, 0x1FDA), (0x1F78, 0x1F79, 1, 0x1FF8),
   (0x1F7A, 0x1F7B, 1, 0x1FEA), (0x1F7C, 0x1F7D, 1, 0x1FFA), (0x1FB0, 0x1FB1, 1, 0x1FB8),
   (0x1FBE, 0x1FBE, 1, 0x399), (0x1FD0, 0x1FD1, 1, 0x1FD8), (0x1FE0, 0x1FE1, 1, 0x1FE8),
   (0x1FE5, 0x1FE5, 1, 0x1FEC), (0x214E, 0x214E, 1, 0x2132), (0x2170, 0x217F, 1, 0x2160),
   (0x2184, 0x2184, 1, 0x2183), (0x24D0, 0x24E9, 1, 0x24B6), (0x2C30, 0x2C5F, 1, 0x2C00),
   (0x2C61, 0x2C61, 1, 0x2C60), (0x2C65, 0x2C65, 1, 0x23A), (0x2C66, 0x2C66, 1, 0x23E),
   (0x2C68, 0x2C6C, 2, 0x2C67), (0x2C73, 0x2C73, 1, 0x2C72), (0x2C76, 0x2C76, 1, 0x2C75),
   (0x2C81, 0x2CE3, 2, 0x2C80), (0x2CEC, 0x2CEE, 2, 0x2CEB), (0x2CF3, 0x2CF3, 1, 0x2CF2),
   (0x2D00, 0x2D25, 1, 0x10A0), (0x2D27, 0x2D27, 1, 0x10C7), (0x2D2D, 0x2D2D, 1, 0x10CD),
   (0xA641, 0xA66D, 2, 0xA640), (0xA681, 0xA69B, 2, 0xA680), (0xA723, 0xA72F, 2, 0xA722),
   (0xA733, 0xA76F, 2, 0xA732), (0xA77A, 0xA77C, 2, 0xA779), (0xA77F, 0xA787, 2, 0xA77E),
   (0xA78C, 0xA78C, 1, 0xA78B), (0xA791, 0xA793, 2, 0xA790), (0xA794, 0xA794, 1, 0xA7C4),
   (0xA797, 0xA7A9, 2, 0xA796), (0xA7B5, 0xA7C3, 2, 0xA7B4), (0xA7C8, 0xA7CA, 2, 0xA7C7),
   (0xA7D1, 0xA7D1, 1, 0xA7D0), (0xA7D7, 0xA7D9, 2, 0xA7D6), (0xA7F6, 0xA7F6, 1, 0xA7F5),
   (0xAB53, 0xAB53, 1, 0xA7B3), (0xAB70, 0xABBF, 1, 0x13A0), (0xFF41, 0xFF5A, 1, 0xFF21),
   (0x10428, 0x1044F, 1, 0x10400), (0x104D8, 0x104FB, 1, 0x104B0), (0x10597, 0x105A1, 1, 0x10570),
   (0x105A3, 0x105B1, 1, 0x1057C), (0x105B3, 0x105B9, 1, 0x1058C), (0x105BB, 0x105BC, 1, 0x10594),
   (0x10CC0, 0x10CF2, 1, 0x10C80), (0x118C0, 0x118DF, 1, 0x118A0), (0x16E60, 0x16E7F, 1, 0x16E40),
   (0x1E922, 0x1E943, 1, 0x1E900)]

/-- The upper case of the code point `n` under the locale-insensitive mapping of the Unicode
Character Database, as a list of code points: the special mapping if there is one, else the
simple one, else the code point itself. -/
def upperCodePoints (n : Nat) : List Nat :=
  match specialUpperCase.lookup n with
  | some upper => upper
  | none =>
    match simpleUpperCase.find? (fun r => r.1 ≤ n && n ≤ r.2.1 && (n - r.1) % r.2.2.1 == 0) with
    | some r => [r.2.2.2 + (n - r.1)]
    | none => [n]

/-- The method `String.prototype.toUpperCase`: every code point of the string is replaced by
its upper case, which may be longer than one code point.  The tables are those of version 14.0
of the Unicode Character Database; a code point that received a case mapping in a later
version is kept as it is. -/
def toUpperCase (s : String) : String :=
  String.mk (s.data.flatMap (fun c => (upperCodePoints c.toNat).map Char.ofNat))

/-! ### Helper functions of `server.js` -/

/-- The function `categorizeViolation(violation)`: reads `id` and `tags` of the violation. -/
def categorizeViolation (violation : Finding) : String :=
  let id := violation.id
  let tags := violation.tags
  if includes id "color" || includes id "contrast" then "Color & Contrast"
  else if includes id "image" || includes id "alt" then "Images & Media"
  else if includes id "form" || includes id "label" || includes id "input" then "Forms & Controls"
  else if includes id "heading" || includes id "structure" || includes id "landmark" then
    "Structure & Navigation"
  else if includes id "keyboard" || includes id "focus" || includes id "tabindex" then
    "Keyboard & Focus"
  else if tags.contains "wcag2a" || tags.contains "wcag2aa" then "WCAG Compliance"
  else "General Accessibility"

/-- A JavaScript value read out of `severityMap`: one of its own string values, or a member
inherited from `Object.prototype` (a function or object, hence truthy and not a string). -/
inductive JsValue where
  | str (s : String)
  | inherited (key : String)
deriving DecidableEq

/-- The own properties of the object literal `severityMap`. -/
def severityMap : List (String × String) :=
  [("critical", "critical"), ("serious", "high"), ("moderate", "medium"), ("minor", "low")]

/-- The property names every object literal inherits from `Object.prototype`. -/
def objectPrototypeKeys : List String :=
  ["constructor", "__defineGetter__", "__defineSetter__", "hasOwnProperty", "__lookupGetter__",
   "__lookupSetter__", "isPrototypeOf", "propertyIsEnumerable", "toString", "valueOf",
   "__proto__", "toLocaleString"]

/-- Property access `severityMap[impact]`: own properties first, then the prototype;
`none` is `undefined`.  A missing impact is converted to the key `"undefined"` (`"null"` for
`null`), which is neither an own nor an inherited property. -/
def severityMapGet (impact : Option String) : Option JsValue :=
  match impact with
  | none => none
  | some key =>
    match severityMap.lookup key with
    | some v => some (JsValue.str v)
    | none => if objectPrototypeKeys.contains key then some (JsValue.inherited key) else none

/-- The function `mapImpactToSeverity(impact)`: `severityMap[impact] || 'medium'`.
Every value found in the map or on its prototype is truthy. -/
def mapImpactToSeverity (impact : Option String) : JsValue :=
  match severityMapGet impact with
  | some v => v
  | none => JsValue.str "medium"

/-- After `wcag` and at least one digit: the rest of the digit run, then an `a` in either case. -/
def digitsThenA : List Char → Bool
  | [] => false
  | c :: cs => if c.isDigit then digitsThenA cs else (c == 'a' || c == 'A')

/-- Whether `/wcag\d+[a]{1,3}/i` matches at the very start of the characters. -/
def wcagMatchesAt : List Char → Bool
  | w :: c :: a :: g :: d :: rest =>
    (w == 'w' || w == 'W') && (c == 'c' || c == 'C') && (a == 'a' || a == 'A') &&
      (g == 'g' || g == 'G') && d.isDigit && digitsThenA rest
  | _ => false

/-- Whether `/wcag\d+[a]{1,3}/i` matches somewhere in the characters. -/
def wcagMatchesIn : List Char → Bool
  | [] => false
  | c :: cs => wcagMatchesAt (c :: cs) || wcagMatchesIn cs

/-- The test of `tags.find`: `tag.match(/wcag\d+[a]{1,3}/i)` is not `null`. -/
def matchesWcag (tag : String) : Bool := wcagMatchesIn tag.data

/-- The function `extractWcagLevel(tags)`: the first tag that matches the pattern decides. -/
def extractWcagLevel (tags : List String) : String :=
  match tags.find? matchesWcag with
  | none => "N/A"
  | some wcagTag =>
    if includes wcagTag "wcag2a" && !includes wcagTag "wcag2aa" then "A"
    else if includes wcagTag "wcag2aa" && !includes wcagTag "wcag2aaa" then "AA"
    else if includes wcagTag "wcag2aaa" then "AAA"
    else if includes wcagTag "wcag21aa" then "AA (2.1)"
    else toUpperCase wcagTag

/-! ### The report built by `/api/analyze` -/

/-- The `options` object of an analyze request (`rules`, `tags`, `waitTime`, all optional). -/
structure Options where
  rules : Option (List (String × Bool))
  tags : Option (List String)
  waitTime : Option Nat
deriving DecidableEq

/-- A violation with the three derived fields: `{...v, category, severity, wcagLevel}`. -/
structure EnhancedViolation extends Finding where
  category : String
  severity : JsValue
  wcagLevel : String
deriving DecidableEq

/-- The body of `axeResults.violations.map(v => ...)`. -/
def enhance (v : Finding) : EnhancedViolation :=
  { toFinding := v
    category := categorizeViolation v
    severity := mapImpactToSeverity v.impact
    wcagLevel := extractWcagLevel v.tags }

/-- The `pageInfo` object. -/
structure PageInfo where
  url : String
  title : String
deriving DecidableEq

/-- The `metadata` object. -/
structure Metadata where
  axeVersion : String
  analysisTime : String
  rulesRun : Nat
  options : Options
deriving DecidableEq

/-- The object `responseData`; the document handed to `new AnalysisResult(...)` has the same
fields. -/
structure Report where
  url : String
  score : Int
  summary : Summary
  pageInfo : PageInfo
  violations : List EnhancedViolation
  passes : List Finding
  incomplete : List Finding
  inapplicable : List Finding
  metadata : Metadata
  userId : String
deriving DecidableEq

/-- The object literal built twice by the `/api/analyze` handler (once as `responseData`, once
as the argument of `new AnalysisResult`), each time with its own reading `analysisTime` of the
clock.  `pageUrl` and `pageTitle` are `page.url()` and `page.title()`. -/
def mkReport (pageUrl pageTitle axeVersion analysisTime : String) (options : Options)
    (userId : String) (axeResults : AxeResults) : Report :=
  { url := pageUrl
    score := score axeResults
    summary := summary axeResults
    pageInfo := { url := pageUrl, title := pageTitle }
    violations := axeResults.violations.map enhance
    passes := axeResults.passes
    incomplete := axeResults.incomplete
    inapplicable := axeResults.inapplicable
    metadata :=
      { axeVersion := axeVersion
        analysisTime := analysisTime
        rulesRun := totalChecks axeResults
        options := options }
    userId := userId }

/-! ### URL helpers -/

/-- The method `String.prototype.startsWith`. -/
def startsWith (s pre : String) : Bool := pre.data.isPrefixOf s.data

/-- The function `normalizeUrl(url)`. -/
def normalizeUrl (url : String) : String :=
  if !startsWith url "http://" && !startsWith url "https://" then "https://" ++ url else url

/-- The function `isValidUrl(string)`: whether `new URL(string)` returns rather than throws.
The URL parser of the runtime is the parameter `urlParses`. -/
def isValidUrl (urlParses : String → Bool) (string : String) : Bool := urlParses string

/-! ### The auth middleware -/

/-- The `user` payload of a token, `{ id }`. -/
structure TokenUser where
  id : String
deriving DecidableEq

/-- A decoded token payload; `user` is `none` when the payload carries no `user`. -/
structure Decoded where
  user : Option TokenUser
deriving DecidableEq

/-- What the `auth` middleware does with a request: it answers itself with
`res.status(status).json({ msg })`, or it sets `req.user` and calls `next()`. -/
inductive AuthOutcome where
  | respond (status : Nat) (msg : String)
  | next (user : Option TokenUser)
deriving DecidableEq

/-- The `auth` middleware.  `header` is `req.header('x-auth-token')` (`none` when the header
is absent); `verify token` is `jwt.verify(token, JWT_SECRET)`, `none` when it throws. -/
def auth (verify : String → Option Decoded) (header : Option String) : AuthOutcome :=
  match header with
  | none => AuthOutcome.respond 401 "No token, authorization denied"
  | some token =>
    if token = "" then AuthOutcome.respond 401 "No token, authorization denied"
    else
      match verify token with
      | some decoded => AuthOutcome.next decoded.user
      | none => AuthOutcome.respond 401 "Token is not valid"

/-! ### The store, responses and effects -/

/-- A document of the `AnalysisResult` collection: the fields handed to the constructor and
the `timestamp` the schema defaults to `Date.now`. -/
structure AnalysisDoc where
  data : Report
  timestamp : Nat
deriving DecidableEq

/-- A document of the `User` collection. -/
structure UserDoc where
  id : String
  username : String
  password : String
deriving DecidableEq

/-- A user document without its `password` field (`select('-password')`). -/
structure UserProfile where
  id : String
  username : String
deriving DecidableEq

/-- The database: the two collections. -/
structure World where
  users : List UserDoc
  results : List AnalysisDoc
deriving DecidableEq

/-- One entry of `axeCore.getRules()`, with the five fields the rules route returns. -/
structure RuleInfo where
  ruleId : String
  description : String
  help : String
  helpUrl : String
  tags : List String
deriving DecidableEq

/-- The body of a response.  `errors` stands for `{ errors: errors.array() }` of the request
validation, of which the messages are kept. -/
inductive Body where
  | msg (msg : String)
  | error (error : String) (message : Option String)
  | text (text : String)
  | report (report : Report)
  | history (docs : List AnalysisDoc)
  | profile (user : Option UserProfile)
  | rules (rules : List RuleInfo)
  | token (token : String)
  | errors (messages : List String)
deriving DecidableEq

/-- A response: status code and body. -/
structure Response where
  status : Nat
  body : Body
deriving DecidableEq

/-- The calls a handler makes on the browser and on the database. -/
inductive Event where
  | launch
  | newPage
  | goto (url : String) (waitUntil : String) (timeout : Nat)
  | waitForSelector (selector : String) (timeout : Nat)
  | addScriptTag
  | evaluate (rules : Option (List (String × Bool))) (tags : List String)
  | close
  | save (doc : AnalysisDoc)
  | findResults (userId : String)
  | findUser (id : String)
  | findUserByName (username : String)
  | saveUser (doc : UserDoc)
deriving DecidableEq

/-- What handling one request amounts to: the response sent (`none` when the handler throws
outside any `try`, so that it sends nothing itself), the database afterwards, and the calls
made, in order; every call in `trace` is made before the response is sent. -/
structure Outcome where
  response : Option Response
  world : World
  trace : List Event
deriving DecidableEq

/-- A route registered as `app.METHOD(path, auth, handler)`: `handler` runs only through the
`next()` of `auth`, with `req.user` as `auth` set it. -/
def protect (verify : String → Option Decoded) (header : Option String)
    (handler : Option TokenUser → World → Outcome) (w : World) : Outcome :=
  match auth verify header with
  | AuthOutcome.respond status msg =>
    { response := some { status := status, body := Body.msg msg }, world := w, trace := [] }
  | AuthOutcome.next user => handler user w

/-! ### The protected routes -/

/-- The `message` of an error response: `error.message` in development mode, otherwise the
fixed text. -/
def errorMessage (dev : Bool) (message fixed : String) : String :=
  if dev then message else fixed

/-- The message of the `TypeError` thrown by `req.user.id` when `req.user` is `undefined`. -/
def noUserMessage : String := "Cannot read properties of undefined (reading 'id')"

/-- The order asked for by `.sort({ timestamp: -1 })`: `a` may stand before `b`. -/
def newerFirst (a b : AnalysisDoc) : Prop := b.timestamp ≤ a.timestamp

instance newerFirstDecidable : DecidableRel newerFirst :=
  fun a b => Nat.decLe b.timestamp a.timestamp

/-- The filter `{ userId }` of a query: the documents of the collection owned by `userId`. -/
def ownedBy (results : List AnalysisDoc) (userId : String) : List AnalysisDoc :=
  results.filter (fun d => d.data.userId == userId)

/-- The query `AnalysisResult.find({ userId }).sort({ timestamp: -1 }).limit(50)`.  Documents
with equal timestamps are kept in insertion order, one of the orders the store may choose. -/
def listRecent (results : List AnalysisDoc) (userId : String) : List AnalysisDoc :=
  ((ownedBy results userId).insertionSort newerFirst).take 50

/-- The handler of `GET /api/history`.  `findError` is the error of the query when the
database rejects it; `dev` is `process.env.NODE_ENV === 'development'`. -/
def historyHandler (dev : Bool) (findError : Option String) (user : Option TokenUser)
    (w : World) : Outcome :=
  match user with
  | none =>
    { response := some
        { status := 500
          body := Body.error "Failed to fetch history"
            (some (errorMessage dev noUserMessage "An error occurred while fetching history.")) }
      world := w
      trace := [] }
  | some u =>
    match findError with
    | some e =>
      { response := some
          { status := 500
            body := Body.error "Failed to fetch history"
              (some (errorMessage dev e "An error occurred while fetching history.")) }
        world := w
        trace := [Event.findResults u.id] }
    | none =>
      { response := some { status := 200, body := Body.history (listRecent w.results u.id) }
        world := w
        trace := [Event.findResults u.id] }

/-- The handler of `GET /api/auth/me`. -/
def meHandler (findError : Option String) (user : Option TokenUser) (w : World) : Outcome :=
  match user with
  | none => { response := some { status := 500, body := Body.text "Server Error" }
              world := w, trace := [] }
  | some u =>
    match findError with
    | some _ => { response := some { status := 500, body := Body.text "Server Error" }
                  world := w, trace := [Event.findUser u.id] }
    | none =>
      { response := some
          { status := 200
            body := Body.profile ((w.users.find? (fun d => d.id == u.id)).map
              (fun d => { id := d.id, username := d.username })) }
        world := w
        trace := [Event.findUser u.id] }

/-- What the collaborators of one analyze request do: each awaited call either returns or
throws an error with a message. -/
structure PageRun where
  launch : Except String Unit
  newPage : Except String Unit
  goto : Except String Unit
  waitForSelector : Except String Unit
  addScriptTag : Except String Unit
  evaluate : Except String AxeResults
  pageUrl : String
  pageTitle : Except String String
  save : Except String Unit
  axeVersion : String
  responseTime : String
  documentTime : String
  timestamp : Nat

/-- The tags passed to the engine: `axeRunOptions.tags || [...]`. -/
def runTags (options : Options) : List String :=
  options.tags.getD ["wcag2a", "wcag2aa", "wcag21aa", "best-practice"]

/-- The `catch` block of the analyze handler: close the browser if it was launched, answer
500.  `trace` holds the calls made so far. -/
def analyzeFail (dev : Bool) (w : World) (trace : List Event) (launched : Bool)
    (message : String) : Outcome :=
  { response := some
      { status := 500
        body := Body.error "Failed to analyze page"
          (some (errorMessage dev message "An error occurred during analysis.")) }
    world := w
    trace := if launched then trace ++ [Event.close] else trace }

/-- The document saved by a successful analyze request. -/
def savedDoc (run : PageRun) (userId : String) (options : Options) (axeResults : AxeResults)
    (title : String) : AnalysisDoc :=
  { data := mkReport run.pageUrl title run.axeVersion run.documentTime options userId axeResults
    timestamp := run.timestamp }

/-- The answer to a missing or invalid URL. -/
def invalidUrl (w : World) : Outcome :=
  { response := some { status := 400, body := Body.error "Invalid or missing URL" none }
    world := w
    trace := [] }

/-- The calls of the analyze handler up to and including the audit. -/
def auditCalls (url : String) (options : Options) : List Event :=
  [Event.launch, Event.newPage, Event.goto (normalizeUrl url) "networkidle2" 30000,
   Event.waitForSelector "body" 15000, Event.addScriptTag,
   Event.evaluate options.rules (runTags options)]

/-- The handler of `POST /api/analyze`.  `url` and `options` are the fields of the request
body (`url` is `none` when missing; `options` defaults to the empty object). -/
def analyzeHandler (urlParses : String → Bool) (dev : Bool) (run : PageRun)
    (url : Option String) (options : Options) (user : Option TokenUser) (w : World) : Outcome :=
  match user with
  | none => { response := none, world := w, trace := [] }
  | some u =>
    match url with
    | none => invalidUrl w
    | some url =>
      if url = "" || !isValidUrl urlParses (normalizeUrl url) then invalidUrl w
      else
        match run.launch with
        | Except.error e => analyzeFail dev w [Event.launch] false e
        | Except.ok _ =>
        match run.newPage with
        | Except.error e => analyzeFail dev w ((auditCalls url options).take 2) true e
        | Except.ok _ =>
        match run.goto with
        | Except.error e => analyzeFail dev w ((auditCalls url options).take 3) true e
        | Except.ok _ =>
        match run.waitForSelector with
        | Except.error e => analyzeFail dev w ((auditCalls url options).take 4) true e
        | Except.ok _ =>
        match run.addScriptTag with
        | Except.error e => analyzeFail dev w ((auditCalls url options).take 5) true e
        | Except.ok _ =>
        match run.evaluate with
        | Except.error e => analyzeFail dev w (auditCalls url options) true e
        | Except.ok axeResults =>
        match run.pageTitle with
        | Except.error e => analyzeFail dev w (auditCalls url options) true e
        | Except.ok title =>
        match run.save with
        | Except.error e =>
          analyzeFail dev w
            (auditCalls url options ++ [Event.save (savedDoc run u.id options axeResults title)])
            true e
        | Except.ok _ =>
          { response := some
              { status := 200
                body := Body.report
                  (mkReport run.pageUrl title run.axeVersion run.responseTime options u.id
                    axeResults) }
            world := { w with
              results := w.results ++ [savedDoc run u.id options axeResults title] }
            trace := auditCalls url options ++
              [Event.save (savedDoc run u.id options axeResults title), Event.close] }

/-- The route `GET /api/auth/me`. -/
def meRoute (verify : String → Option Decoded) (findError : Option String)
    (header : Option String) (w : World) : Outcome :=
  protect verify header (meHandler findError) w

/-- The route `GET /api/history`. -/
def historyRoute (verify : String → Option Decoded) (dev : Bool) (findError : Option String)
    (header : Option String) (w : World) : Outcome :=
  protect verify header (historyHandler dev findError) w

/-- The route `POST /api/analyze`. -/
def analyzeRoute (verify : String → Option Decoded) (urlParses : String → Bool) (dev : Bool)
    (run : PageRun) (header : Option String) (url : Option String) (options : Options)
    (w : World) : Outcome :=
  protect verify header (analyzeHandler urlParses dev run url options) w

/-- One analyze request as it reaches the server, with what its collaborators do. -/
structure AnalyzeRequest where
  header : Option String
  url : Option String
  options : Options
  run : PageRun

/-- The database after a sequence of analyze requests, handled one after the other. -/
def runAnalyses (verify : String → Option Decoded) (urlParses : String → Bool) (dev : Bool)
    (w : World) (reqs : List AnalyzeRequest) : World :=
  reqs.foldl
    (fun w req =>
      (analyzeRoute verify urlParses dev req.run req.header req.url req.options w).world)
    w

/-- The database before any registration or analysis. -/
def emptyWorld : World := { users := [], results := [] }

instance newerFirstTotal : IsTotal AnalysisDoc newerFirst :=
  ⟨fun a b => Nat.le_total b.timestamp a.timestamp⟩

instance newerFirstTrans : IsTrans AnalysisDoc newerFirst :=
  ⟨fun _ _ _ hab hbc => Nat.le_trans hbc hab⟩

/-! ### The routes without authentication -/

/-- The handler of `GET /api/rules`.  `getRules` is `axeCore.getRules()`, or the message of the
error it throws. -/
def rulesHandler (getRules : Except String (List RuleInfo)) (w : World) : Outcome :=
  match getRules with
  | Except.ok rules =>
    { response := some
        { status := 200
          body := Body.rules (rules.map (fun rule =>
            { ruleId := rule.ruleId, description := rule.description, help := rule.help,
              helpUrl := rule.helpUrl, tags := rule.tags })) }
      world := w
      trace := [] }
  | Except.error e =>
    { response := some { status := 500, body := Body.error "Failed to fetch rules" (some e) }
      world := w
      trace := [] }

/-- What the collaborators of one register or login request do: the user lookup and the save
return or throw; `hashed` is the bcrypt hash the pre-save hook computes for the password with
a fresh salt; `newId` is the id of the new document; `sign` is the token `jwt.sign` hands to
its callback, `none` when it hands over an error. -/
structure AuthRun where
  find : Except String Unit
  hashed : String
  newId : String
  save : Except String Unit
  sign : Option String

/-- The two presentation selectors U+FE0E and U+FE0F, which `isLength` leaves out of its
count. -/
def isPresentationSelector (c : Char) : Bool := c.toNat == 0xFE0E || c.toNat == 0xFE0F

/-- The length the validator `isLength` compares with `min`: `str.length` minus the number of
presentation selectors (matches of `/(\uFE0F|\uFE0E)/g`) minus the number of surrogate pairs.
A surrogate pair is one code point, so this is the number of code points of the string that
are not presentation selectors. -/
def validatorLength (s : String) : Nat :=
  (s.data.filter (fun c => !isPresentationSelector c)).length

/-- The validation chain of the register route: `isLength({ min: 3 })` on `username`,
`isLength({ min: 6 })` on `password`; a missing field counts as the empty string.  The fields
are strings when present. -/
def registerErrors (username password : Option String) : List String :=
  (if validatorLength (username.getD "") < 3 then
      ["Username must be at least 3 characters long"]
    else []) ++
  (if validatorLength (password.getD "") < 6 then
      ["Password must be at least 6 characters long"]
    else [])

/-- The handler of `POST /api/auth/register`. -/
def registerHandler (run : AuthRun) (username password : Option String) (w : World) :
    Outcome :=
  if (registerErrors username password).isEmpty then
    let name := username.getD ""
    match run.find with
    | Except.error _ =>
      { response := some { status := 500, body := Body.text "Server Error" }
        world := w, trace := [Event.findUserByName name] }
    | Except.ok _ =>
      match w.users.find? (fun d => d.username == name) with
      | some _ =>
        { response := some { status := 400, body := Body.msg "User already exists" }
          world := w, trace := [Event.findUserByName name] }
      | none =>
        match run.save with
        | Except.error _ =>
          { response := some { status := 500, body := Body.text "Server Error" }
            world := w
            trace := [Event.findUserByName name,
              Event.saveUser { id := run.newId, username := name, password := run.hashed }] }
        | Except.ok _ =>
          { response := run.sign.map (fun token => { status := 200, body := Body.token token })
            world := { w with
              users := w.users ++
                [{ id := run.newId, username := name, password := run.hashed }] }
            trace := [Event.findUserByName name,
              Event.saveUser { id := run.newId, username := name, password := run.hashed }] }
  else
    { response := some { status := 400, body := Body.errors (registerErrors username password) }
      world := w, trace := [] }

/-- The `password` field of the JSON body of a login request: missing, a string, or a value
of another type, of which only `typeof` matters (`"number"`, `"boolean"`, `"object"` for
`null`, arrays and objects). -/
inductive BodyField where
  | absent
  | text (s : String)
  | other (typeName : String)
deriving DecidableEq

/-- The validation chain of the login route: both fields must exist.  `exists()` only rejects
`undefined`, so a password that is not a string passes.  The username is a string when
present. -/
def loginErrors (username : Option String) (password : BodyField) : List String :=
  (if username.isNone then ["Username is required"] else []) ++
  (if password = BodyField.absent then ["Password is required"] else [])

/-- The call `bcrypt.compare(password, user.password)` of bcryptjs: it rejects with
`Illegal arguments` unless both arguments are strings; on two strings it is `compare`, which
resolves to a boolean or rejects (a stored hash with a salt it cannot read). -/
def bcryptCompare (compare : String → String → Except String Bool) (password : BodyField)
    (hash : String) : Except String Bool :=
  match password with
  | BodyField.text s => compare s hash
  | BodyField.other typeName => Except.error ("Illegal arguments: " ++ typeName ++ ", string")
  | BodyField.absent => Except.error "Illegal arguments: undefined, string"

/-- The handler of `POST /api/auth/login`.  `compare` is `bcrypt.compare` on two strings.  The
comparison is awaited inside the `try`, so its rejection is answered by the `catch`. -/
def loginHandler (compare : String → String → Except String Bool) (run : AuthRun)
    (username : Option String) (password : BodyField) (w : World) : Outcome :=
  if (loginErrors username password).isEmpty then
    let name := username.getD ""
    match run.find with
    | Except.error _ =>
      { response := some { status := 500, body := Body.text "Server Error" }
        world := w, trace := [Event.findUserByName name] }
    | Except.ok _ =>
      match w.users.find? (fun d => d.username == name) with
      | none =>
        { response := some { status := 400, body := Body.msg "Invalid Credentials" }
          world := w, trace := [Event.findUserByName name] }
      | some user =>
        match bcryptCompare compare password user.password with
        | Except.error _ =>
          { response := some { status := 500, body := Body.text "Server Error" }
            world := w, trace := [Event.findUserByName name] }
        | Except.ok true =>
          { response := run.sign.map (fun token => { status := 200, body := Body.token token })
            world := w, trace := [Event.findUserByName name] }
        | Except.ok false =>
          { response := some { status := 400, body := Body.msg "Invalid Credentials" }
            world := w, trace := [Event.findUserByName name] }
  else
    { response := some { status := 400, body := Body.errors (loginErrors username password) }
      world := w, trace := [] }

/-! ### The client: `AccessibilityAnalyzer.js` -/

/-- Replace the first occurrence of the characters `pat` in `s` by `rep`; `s` is returned
unchanged when `pat` does not occur. -/
def replaceFirstChars : List Char → List Char → List Char → List Char
  | [], pat, rep => if pat.isEmpty then rep else []
  | c :: cs, pat, rep =>
    if pat.isPrefixOf (c :: cs) then rep ++ (c :: cs).drop pat.length
    else c :: replaceFirstChars cs pat rep

/-- The method `String.prototype.replace` with a search string and a replacement string
without `$` patterns: the first occurrence is replaced. -/
def replaceFirst (s pat rep : String) : String :=
  String.mk (replaceFirstChars s.data pat.data rep.data)

/-- What `generateFixedCode` evaluates to: a text, or, when `fixes[violation.id]` finds a member
inherited from `Object.prototype` instead of a template, the outcome of calling that member
with the html (a wrapper object, the text `[object Undefined]` or a `TypeError`, depending on
the member; never the texts of the templates). -/
inductive FixedCode where
  | text (text : String)
  | inheritedCall (key : String) (html : String)
deriving DecidableEq

/-- The expression `nodes[0]?.html || ''`: the html of the first node, the empty string when
there is no node or the node has no html. -/
def firstHtml (nodes : List Node) : String :=
  match nodes with
  | [] => ""
  | node :: _ => node.html.getD ""

/-- The text appended by the `default` entry of `fixes`. -/
def defaultFixComment : String := " <!-- Add appropriate accessibility attributes -->"

/-- The function `generateFixedCode(violation)`: `fixes[violation.id] || fixes.default`
applied to the html of the first node.  The object literal `fixes` has the four templates and
`default` as own properties and inherits the members of `Object.prototype`, all truthy. -/
def generateFixedCode (violation : Finding) : FixedCode :=
  let originalHtml := firstHtml violation.nodes
  if violation.id = "color-contrast" then
    FixedCode.text (replaceFirst originalHtml "text-gray-400 bg-gray-300" "text-gray-800 bg-white")
  else if violation.id = "image-alt" then
    FixedCode.text (replaceFirst originalHtml "<img src=" "<img alt=\"Descriptive text\" src=")
  else if violation.id = "label" then
    FixedCode.text (replaceFirst originalHtml "<input" "<input aria-label=\"Input description\"")
  else if violation.id = "heading-order" then
    FixedCode.text (replaceFirst originalHtml "<h3>" "<h2>")
  else if violation.id = "default" then
    FixedCode.text (originalHtml ++ defaultFixComment)
  else if objectPrototypeKeys.contains violation.id then
    FixedCode.inheritedCall violation.id originalHtml
  else FixedCode.text (originalHtml ++ defaultFixComment)

/-- The own properties of the object literal `percentages`. -/
def percentages : List (String × String) :=
  [("critical", "15% of users with disabilities"), ("serious", "10% of users with disabilities"),
   ("moderate", "5% of users"), ("minor", "2% of users")]

/-- The function `estimateAffectedUsers(impact)`: `percentages[impact] || 'Some users'`, with
the same property lookup as `severityMap[impact]`. -/
def estimateAffectedUsers (impact : Option String) : JsValue :=
  match impact with
  | none => JsValue.str "Some users"
  | some key =>
    match percentages.lookup key with
    | some v => JsValue.str v
    | none =>
      if objectPrototypeKeys.contains key then JsValue.inherited key
      else JsValue.str "Some users"

/-- Whether `/wcag\d{3}/i` matches at the very start of the characters. -/
def wcagCriterionAt : List Char → Bool
  | w :: c :: a :: g :: d₁ :: d₂ :: d₃ :: _ =>
    (w == 'w' || w == 'W') && (c == 'c' || c == 'C') && (a == 'a' || a == 'A') &&
      (g == 'g' || g == 'G') && d₁.isDigit && d₂.isDigit && d₃.isDigit
  | _ => false

/-- Whether `/wcag\d{3}/i` matches somewhere in the characters. -/
def wcagCriterionIn : List Char → Bool
  | [] => false
  | c :: cs => wcagCriterionAt (c :: cs) || wcagCriterionIn cs

/-- The `codeExample` of a formatted issue. -/
structure CodeExample where
  before : String
  after : FixedCode
deriving DecidableEq

/-- One entry of `formattedResults.issues`. -/
structure Issue where
  id : String
  type : String
  category : String
  element : String
  issue : String
  wcagLevel : String
  impact : Option String
  suggestion : String
  priority : Nat
  affectedUsers : JsValue
  codeExample : CodeExample
deriving DecidableEq

/-- The body of `analysisResults.violations?.map(v => ...)` in `analyzeWebsite`; of the
violation received from the server it reads `id`, `impact`, `tags`, `nodes`, `description`
and `help`. -/
def formatIssue (v : Finding) : Issue :=
  { id := v.id
    type := if v.impact = some "critical" then "critical" else "warning"
    category := (v.tags.find? (fun t => startsWith t "wcag")).getD "General"
    element := firstHtml v.nodes
    issue := v.description
    wcagLevel := (v.tags.find? (fun t => wcagCriterionIn t.data)).getD ""
    impact := v.impact
    suggestion := v.help
    priority := if v.impact = some "critical" then 1 else 2
    affectedUsers := estimateAffectedUsers v.impact
    codeExample := { before := firstHtml v.nodes, after := generateFixedCode v } }

/-- The rule ids for which `fixes` has a template. -/
def fixTemplateIds : List String := ["color-contrast", "image-alt", "label", "heading-order"]

/-- One entry of the `categories` object. -/
structure Category where
  score : Int
  issues : Nat
  status : String
  description : String
deriving DecidableEq

/-- The `categories` object of `generateCategoriesFromViolations`; its key `structure` is
named `pageStructure` here. -/
structure Categories where
  colorContrast : Category
  images : Category
  forms : Category
  navigation : Category
  pageStructure : Category
deriving DecidableEq

/-- The five keys of the `categories` object. -/
inductive Bucket where
  | colorContrast
  | images
  | forms
  | navigation
  | pageStructure
deriving DecidableEq

/-- The entry of a key. -/
def Categories.get (c : Categories) : Bucket → Category
  | Bucket.colorContrast => c.colorContrast
  | Bucket.images => c.images
  | Bucket.forms => c.forms
  | Bucket.navigation => c.navigation
  | Bucket.pageStructure => c.pageStructure

/-- The `if`/`else if` chain in the `forEach` of `generateCategoriesFromViolations`: the entry
whose `issues` is incremented for the violation. -/
def bucketOf (violation : Finding) : Bucket :=
  if includes violation.id "color" || includes violation.id "contrast" then Bucket.colorContrast
  else if includes violation.id "image" || includes violation.id "alt" then Bucket.images
  else if includes violation.id "form" || includes violation.id "label" then Bucket.forms
  else if includes violation.id "nav" || includes violation.id "keyboard" then Bucket.navigation
  else Bucket.pageStructure

/-- The statement `categories.key.issues++`. -/
def bump (c : Category) : Category := { c with issues := c.issues + 1 }

/-- One round of the `forEach`. -/
def addViolation (c : Categories) (violation : Finding) : Categories :=
  match bucketOf violation with
  | Bucket.colorContrast => { c with colorContrast := bump c.colorContrast }
  | Bucket.images => { c with images := bump c.images }
  | Bucket.forms => { c with forms := bump c.forms }
  | Bucket.navigation => { c with navigation := bump c.navigation }
  | Bucket.pageStructure => { c with pageStructure := bump c.pageStructure }

/-- The object literal `categories` before the violations are counted. -/
def initialCategories : Categories :=
  { colorContrast :=
      { score := 0, issues := 0, status := "success",
        description := "Color and contrast accessibility" }
    images :=
      { score := 0, issues := 0, status := "success",
        description := "Image accessibility and alt text" }
    forms :=
      { score := 0, issues := 0, status := "success",
        description := "Form labels and accessibility" }
    navigation :=
      { score := 0, issues := 0, status := "success",
        description := "Navigation and keyboard access" }
    pageStructure :=
      { score := 0, issues := 0, status := "success",
        description := "Page structure and headings" } }

/-- The body of `Object.keys(categories).forEach`: score and status from the issue count. -/
def finishCategory (c : Category) : Category :=
  let score : Int := max 0 (100 - (c.issues : Int) * 20)
  { c with
    score := score
    status := if score ≥ 90 then "success" else if score ≥ 70 then "warning" else "error" }

/-- The function `generateCategoriesFromViolations(violations)`. -/
def generateCategoriesFromViolations (violations : List Finding) : Categories :=
  let counted := violations.foldl addViolation initialCategories
  { colorContrast := finishCategory counted.colorContrast
    images := finishCategory counted.images
    forms := finishCategory counted.forms
    navigation := finishCategory counted.navigation
    pageStructure := finishCategory counted.pageStructure }

/-- The expression `Math.round(analysisResults.score * 100)` on the score received from the
server, a non-negative integer: the double product by 100, then `Math.round`. -/
def clientScore (score : Int) : Int := mathRound (fmul { m := score.toNat, e := 0 } 100)

/-- The object `formattedResults` of `analyzeWebsite`. -/
structure FormattedResults where
  url : String
  score : Int
  totalIssues : Nat
  criticalIssues : Nat
  warningIssues : Nat
  infoIssues : Nat
  scanTime : String
  pageElements : Nat
  categories : Categories
  issues : List Issue
deriving DecidableEq

/-- The object `formattedResults` built by `analyzeWebsite` from the report `analysisResults`
received from the server (its field `previousScore`, always `null`, is left out).
`scanTime` is the text made from `Math.random()`. -/
def formatResults (websiteUrl scanTime : String) (analysisResults : Report) :
    FormattedResults :=
  let violations := analysisResults.violations.map (fun v => v.toFinding)
  { url := websiteUrl
    score := clientScore analysisResults.score
    totalIssues := violations.length
    criticalIssues := (violations.filter (fun v => v.impact == some "critical")).length
    warningIssues := (violations.filter (fun v => v.impact == some "serious")).length
    infoIssues :=
      (violations.filter
        (fun v => v.impact == some "moderate" || v.impact == some "minor")).length
    scanTime := scanTime
    pageElements := analysisResults.passes.length + violations.length
    categories := generateCategoriesFromViolations violations
    issues := violations.map formatIssue }

/-- The comparator of `filtered.sort`, as the relation "the comparator does not put `b` before
`a`"; `localeLe a b` stands for `a.localeCompare(b) <= 0`. -/
def issueOrder (localeLe : String → String → Bool) (sortBy : String) (a b : Issue) : Prop :=
  (if sortBy = "priority" then decide (a.priority ≤ b.priority)
    else if sortBy = "category" then localeLe a.category b.category
    else if sortBy = "type" then localeLe a.type b.type
    else true) = true

instance issueOrderDecidable (localeLe : String → String → Bool) (sortBy : String) :
    DecidableRel (issueOrder localeLe sortBy) :=
  fun _ _ => instDecidableEqBool _ _

/-- The memoised value `filteredIssues`; `issues` is `results?.issues`, `none` when there are
no results.  The sort is stable. -/
def filteredIssues (localeLe : String → String → Bool) (issues : Option (List Issue))
    (filterType sortBy : String) : List Issue :=
  match issues with
  | none => []
  | some issues =>
    let filtered :=
      if filterType ≠ "all" then issues.filter (fun issue => issue.type == filterType)
      else issues
    filtered.insertionSort (issueOrder localeLe sortBy)

/-! ### The client: `services/api.js` -/

/-- The string handed to `new URL` by the pre-check of `AccessibilityAPI.analyzeWebsite`:
`url.startsWith('http') ? url : 'https://' + url`. -/
def clientCandidate (url : String) : String :=
  if startsWith url "http" then url else "https://" ++ url

/-- Whether `AccessibilityAPI.analyzeWebsite` throws before sending: `url` is empty, or the
candidate does not parse. -/
def clientRejects (urlParses : String → Bool) (url : String) : Bool :=
  url = "" || !urlParses (clientCandidate url)

/-- Whether the analyze handler answers 400 to the string `url`:
`!url || !isValidUrl(normalizeUrl(url))`. -/
def serverRejects (urlParses : String → Bool) (url : String) : Bool :=
  url = "" || !isValidUrl urlParses (normalizeUrl url)

/-! ### The specification's wording, for comparison with the code -/

/-- The substring groups of the category classification in their priority order, each with
its category. -/
def categoryGroups : List (List String × String) :=
  [(["color", "contrast"], "Color & Contrast"),
   (["image", "alt"], "Images & Media"),
   (["form", "label", "input"], "Forms & Controls"),
   (["heading", "structure", "landmark"], "Structure & Navigation"),
   (["keyboard", "focus", "tabindex"], "Keyboard & Focus")]

/-- The category as the specification words it: the category of the first group one of whose
substrings occurs in the rule id; otherwise the WCAG fallback on the tags; otherwise General. -/
def categoryBySpec (id : String) (tags : List String) : String :=
  match categoryGroups.find? (fun g => g.1.any (fun sub => includes id sub)) with
  | some g => g.2
  | none =>
    if tags.contains "wcag2a" || tags.contains "wcag2aa" then "WCAG Compliance"
    else "General Accessibility"

/-- The pattern in words: somewhere in the characters stand `wcag` (in either case), then one
or more digits, then an `a` (in either case). -/
def IsWcagMatch (cs : List Char) : Prop :=
  ∃ (pre : List Char) (w c a g : Char) (ds : List Char) (x : Char) (post : List Char),
    cs = pre ++ w :: c :: a :: g :: (ds ++ x :: post) ∧
      (w = 'w' ∨ w = 'W') ∧ (c = 'c' ∨ c = 'C') ∧ (a = 'a' ∨ a = 'A') ∧ (g = 'g' ∨ g = 'G') ∧
      ds ≠ [] ∧ (∀ d ∈ ds, d.isDigit = true) ∧ (x = 'a' ∨ x = 'A')

/-- The keyed templates of `fixes`: rule id, search pattern, replacement. -/
def fixTemplates : List (String × String × String) :=
  [("color-contrast", "text-gray-400 bg-gray-300", "text-gray-800 bg-white"),
   ("image-alt", "<img src=", "<img alt=\"Descriptive text\" src="),
   ("label", "<input", "<input aria-label=\"Input description\""),
   ("heading-order", "<h3>", "<h2>")]

/-- The characters `s` split at the first occurrence of `pat`: `s` is `pre`, `pat`, `post`,
and no occurrence of `pat` in `s` starts further left. -/
def FirstOccurrence (s pat pre post : List Char) : Prop :=
  s = pre ++ pat ++ post ∧
    ∀ pre' post' : List Char, s = pre' ++ pat ++ post' → pre.length ≤ pre'.length

/-- The seven values of the category taxonomy. -/
def taxonomy : List String :=
  ["Color & Contrast", "Images & Media", "Forms & Controls", "Structure & Navigation",
   "Keyboard & Focus", "WCAG Compliance", "General Accessibility"]

/-- The five WCAG levels the specification lists (`AA (2.1)` as the code spells it). -/
def wcagLevels : List String := ["A", "AA", "AAA", "AA (2.1)", "N/A"]

/-- Round-half-up of the exact percentage `100 * p / t`, as the specification states it. -/
def roundHalfUpPercent (p t : Nat) : Int := ⌊(100 * (p : ℚ) / (t : ℚ)) + 1 / 2⌋

/-- A finding with the given rule id and nothing else, used to build concrete audit results. -/
def bareFinding (id : String) : Finding :=
  { id := id, impact := none, tags := [], description := "", help := "", helpUrl := "",
    nodes := [] }

/-- A raw audit result with `v` violations, `p` passes, `i` incomplete and `n` inapplicable
findings. -/
def auditOfCounts (v p i n : Nat) : AxeResults :=
  { violations := List.replicate v (bareFinding "region")
    passes := List.replicate p (bareFinding "document-title")
    incomplete := List.replicate i (bareFinding "color-contrast")
    inapplicable := List.replicate n (bareFinding "marquee") }

/-! ### Concrete requests, for the examples -/

/-- A token check that knows two tokens, of the subjects `A` and `B`. -/
def demoVerify (token : String) : Option Decoded :=
  if token = "token-a" then some { user := some { id := "A" } }
  else if token = "token-b" then some { user := some { id := "B" } }
  else none

/-- A run in which every call succeeds and the audit reports one violation and one pass. -/
def demoRun (timestamp : Nat) : PageRun :=
  { launch := Except.ok ()
    newPage := Except.ok ()
    goto := Except.ok ()
    waitForSelector := Except.ok ()
    addScriptTag := Except.ok ()
    evaluate := Except.ok (auditOfCounts 1 1 0 0)
    pageUrl := "https://example.com/"
    pageTitle := Except.ok "Example Domain"
    save := Except.ok ()
    axeVersion := "4.10.0"
    responseTime := "2025-01-01T00:00:00.000Z"
    documentTime := "2025-01-01T00:00:00.001Z"
    timestamp := timestamp }

/-- The empty `options` object. -/
def noOptions : Options := { rules := none, tags := none, waitTime := none }

/-- Two successful analyze requests, the first by `B`, the second by `A`. -/
def demoRequests : List AnalyzeRequest :=
  [{ header := some "token-b", url := some "example.com", options := noOptions, run := demoRun 10 },
   { header := some "token-a", url := some "example.com", options := noOptions, run := demoRun 20 }]

/-- A collection with 52 documents of `A`, saved at the times 1 to 52 in that order, and one
document of `B` saved at time 60. -/
def manyResults : List AnalysisDoc :=
  (List.range 52).map
      (fun i => savedDoc (demoRun (i + 1)) "A" noOptions (auditOfCounts 1 1 0 0) "Example") ++
    [savedDoc (demoRun 60) "B" noOptions (auditOfCounts 1 1 0 0) "Example"]

/-- A register or login run in which the database answers and a token is signed. -/
def demoAuthRun : AuthRun :=
  { find := Except.ok ()
    hashed := "$2a$10$hash-of-secret1"
    newId := "id-2"
    save := Except.ok ()
    sign := some "signed-token" }

/-- A password check that accepts exactly the password `secret1` for the demo hash. -/
def demoCompare (password hash : String) : Except String Bool :=
  Except.ok (password == "secret1" && hash == "$2a$10$hash-of-secret1")

/-- A database with the one user `alice`. -/
def demoWorld : World :=
  { users := [{ id := "id-1", username := "alice", password := "$2a$10$hash-of-secret1" }]
    results := [] }

/-- The options the client sends by default: `waitTime: 2000` and the default tags. -/
def clientOptions : Options :=
  { rules := none
    tags := some ["wcag2a", "wcag2aa", "wcag21aa", "best-practice"]
    waitTime := some 2000 }

/-- The timeouts of the navigations in a trace. -/
def gotoTimeouts (trace : List Event) : List Nat :=
  trace.filterMap (fun e => match e with
    | Event.goto _ _ timeout => some timeout
    | _ => none)

/-! ## Theorems -/

/-! ### The score -/

theorem log2Aux_eq_log (fuel n : Nat) (h : n ≤ fuel) : log2Aux fuel n = Nat.log 2 n := by
  induction fuel generalizing n with
  | zero =>
    have : n = 0 := by omega
    subst this
    simp [log2Aux]
  | succ k ih =>
    unfold log2Aux
    by_cases h2 : 2 ≤ n
    · rw [if_pos h2, Nat.log_of_one_lt_of_le (by norm_num) h2, ih (n / 2) (by omega)]
    · rw [if_neg h2, Nat.log_of_lt (by omega)]

theorem floorLog2_eq_log (n : Nat) : floorLog2 n = Nat.log 2 n :=
  log2Aux_eq_log n n le_rfl

/-- The exponent of `a / b` is at most `k` as soon as `a / b < 2 ^ (k + 1)`. -/
theorem binade_le (a b k : Nat) (ha : 0 < a) (h : a < 2 ^ (k + 1) * b) :
    binade a b ≤ (k : Int) := by
  have hla : 2 ^ floorLog2 a ≤ a := by
    rw [floorLog2_eq_log]; exact Nat.pow_log_le_self 2 (by omega)
  have hlb : b < 2 ^ (floorLog2 b + 1) := by
    rw [floorLog2_eq_log]; exact Nat.lt_pow_succ_log_self (by norm_num) b
  have hla' : a < 2 ^ (floorLog2 a + 1) := by
    rw [floorLog2_eq_log]; exact Nat.lt_pow_succ_log_self (by norm_num) a
  unfold binade
  simp only
  split_ifs with hc
  · -- `b * 2 ^ la ≤ a * 2 ^ lb`
    by_contra hcon
    have hlt : floorLog2 b + k + 1 ≤ floorLog2 a := by omega
    have h1 : b * 2 ^ (floorLog2 b + k + 1) ≤ b * 2 ^ floorLog2 a :=
      Nat.mul_le_mul_left _ (Nat.pow_le_pow_right (by norm_num) hlt)
    have h2 : b * 2 ^ (floorLog2 b + k + 1) = (2 ^ (k + 1) * b) * 2 ^ floorLog2 b := by
      rw [show floorLog2 b + k + 1 = (k + 1) + floorLog2 b by omega, pow_add]; ring
    have h3 : a * 2 ^ floorLog2 b < (2 ^ (k + 1) * b) * 2 ^ floorLog2 b :=
      Nat.mul_lt_mul_of_pos_right h (by positivity)
    omega
  · by_contra hcon
    have hlt : floorLog2 b + k + 2 ≤ floorLog2 a := by omega
    have h1 : 2 ^ (floorLog2 b + k + 2) ≤ 2 ^ floorLog2 a :=
      Nat.pow_le_pow_right (by norm_num) hlt
    have h2 : 2 ^ (floorLog2 b + k + 2) = 2 ^ (k + 1) * 2 ^ (floorLog2 b + 1) := by
      rw [← pow_add]; congr 1; omega
    have h3 : 2 ^ (k + 1) * b < 2 ^ (k + 1) * 2 ^ (floorLog2 b + 1) :=
      Nat.mul_lt_mul_of_pos_left hlb (by positivity)
    omega

/-- The exponent chosen by `binade` brackets the fraction: `2 ^ k ≤ a / b < 2 ^ (k + 1)`. -/
theorem binade_spec (a b : Nat) (ha : 0 < a) (hb : 0 < b) :
    (2 : ℚ) ^ binade a b * b ≤ a ∧ (a : ℚ) < (2 : ℚ) ^ (binade a b + 1) * b := by
  have hla : 2 ^ floorLog2 a ≤ a := by
    rw [floorLog2_eq_log]; exact Nat.pow_log_le_self 2 (by omega)
  have hla' : a < 2 ^ (floorLog2 a + 1) := by
    rw [floorLog2_eq_log]; exact Nat.lt_pow_succ_log_self (by norm_num) a
  have hlb : 2 ^ floorLog2 b ≤ b := by
    rw [floorLog2_eq_log]; exact Nat.pow_log_le_self 2 (by omega)
  have hlb' : b < 2 ^ (floorLog2 b + 1) := by
    rw [floorLog2_eq_log]; exact Nat.lt_pow_succ_log_self (by norm_num) b
  have qla : ((2 : ℚ) ^ floorLog2 a) ≤ a := by exact_mod_cast hla
  have qla' : (a : ℚ) < (2 : ℚ) ^ floorLog2 a * 2 := by
    have : ((a : Nat) : ℚ) < ((2 ^ (floorLog2 a + 1) : Nat) : ℚ) := by exact_mod_cast hla'
    simpa [pow_succ] using this
  have qlb : ((2 : ℚ) ^ floorLog2 b) ≤ b := by exact_mod_cast hlb
  have qlb' : (b : ℚ) < (2 : ℚ) ^ floorLog2 b * 2 := by
    have : ((b : Nat) : ℚ) < ((2 ^ (floorLog2 b + 1) : Nat) : ℚ) := by exact_mod_cast hlb'
    simpa [pow_succ] using this
  have pa : (0 : ℚ) < (2 : ℚ) ^ floorLog2 a := by positivity
  have pb : (0 : ℚ) < (2 : ℚ) ^ floorLog2 b := by positivity
  have qa : (0 : ℚ) < a := by exact_mod_cast ha
  have qb : (0 : ℚ) < b := by exact_mod_cast hb
  have e1 : (2 : ℚ) ^ ((floorLog2 a : Int) - (floorLog2 b : Int)) =
      (2 : ℚ) ^ floorLog2 a / (2 : ℚ) ^ floorLog2 b := by
    rw [zpow_sub₀ (by norm_num), zpow_natCast, zpow_natCast]
  unfold binade
  simp only
  split_ifs with hc
  · have qc : (b : ℚ) * (2 : ℚ) ^ floorLog2 a ≤ a * (2 : ℚ) ^ floorLog2 b := by exact_mod_cast hc
    rw [zpow_add₀ (by norm_num), e1, zpow_one]
    constructor
    · rw [div_mul_eq_mul_div, div_le_iff₀ pb]; linarith
    · rw [div_mul_eq_mul_div, div_mul_eq_mul_div, lt_div_iff₀ pb]
      nlinarith
  · have qc : (a : ℚ) * (2 : ℚ) ^ floorLog2 b < b * (2 : ℚ) ^ floorLog2 a := by
      exact_mod_cast not_le.mp hc
    rw [sub_add_cancel, zpow_sub₀ (by norm_num), e1, zpow_one]
    constructor
    · rw [div_div, div_mul_eq_mul_div, div_le_iff₀ (by positivity)]
      nlinarith
    · rw [div_mul_eq_mul_div, lt_div_iff₀ pb]; linarith

/-- The value `roundHalfEven num den` is an integer nearest to `num / den`. -/
theorem roundHalfEven_nearest (num den : Nat) (hden : 0 < den) :
    2 * |((roundHalfEven num den : Nat) : Int) * den - num| ≤ den := by
  have hdm := Nat.div_add_mod num den
  have hr := Nat.mod_lt num hden
  unfold roundHalfEven
  simp only
  generalize num / den = q at hdm ⊢
  generalize num % den = r at hdm hr ⊢
  have hdmZ : (den : Int) * q + r = num := by exact_mod_cast hdm
  have hr0 : (0 : Int) ≤ r := Int.natCast_nonneg r
  have hrZ : (r : Int) < den := by exact_mod_cast hr
  have low : ∀ x : Int, x = -(r : Int) → 2 * (r : Int) ≤ den → 2 * |x| ≤ den := by
    intro x hx h
    rw [hx, abs_neg, abs_of_nonneg hr0]; exact h
  have high : ∀ x : Int, x = den - (r : Int) → (den : Int) ≤ 2 * r → 2 * |x| ≤ den := by
    intro x hx h
    rw [hx, abs_of_nonneg (by linarith)]; linarith
  split_ifs with h1 h2 h3
  · exact low _ (by linarith) (by exact_mod_cast h1.le)
  · exact high _ (by push_cast; linarith) (by exact_mod_cast h2.le)
  · exact low _ (by linarith) (by exact_mod_cast not_lt.mp h2)
  · exact high _ (by push_cast; linarith) (by exact_mod_cast not_lt.mp h1)

/-- The function `roundHalfEven` never crosses an integer: if `num / den ≤ N` then the result
is at most `N`. -/
theorem roundHalfEven_le (num den N : Nat) (hden : 0 < den) (h : num ≤ N * den) :
    roundHalfEven num den ≤ N := by
  have hq : num / den ≤ N := Nat.div_le_of_le_mul (by rw [Nat.mul_comm]; exact h)
  have hdm := Nat.div_add_mod num den
  have hq1 : 0 < num % den → num / den + 1 ≤ N := by
    intro hr
    have : den * (num / den) < den * N := by
      calc den * (num / den) < num := by omega
        _ ≤ N * den := h
        _ = den * N := Nat.mul_comm _ _
    have := Nat.lt_of_mul_lt_mul_left this
    omega
  unfold roundHalfEven
  simp only
  split_ifs with h1 h2 h3
  · exact hq
  · exact hq1 (by omega)
  · exact hq
  · exact hq1 (by omega)

/-- Rounding never crosses a value `N` that is itself representable at the exponent used:
if `a / b ≤ N` and `a / b < 2 ^ (k + 1)` with `k ≤ 52`, the rounded value is `m * 2 ^ (-s)`
with `m ≤ N * 2 ^ s`. -/
theorem roundToDouble_le (a b N k : Nat) (hb : 0 < b) (hk : k ≤ 52) (hN : a ≤ N * b)
    (hlt : a < 2 ^ (k + 1) * b) :
    ∃ s : Nat, (roundToDouble a b).e = -(s : Int) ∧ (roundToDouble a b).m ≤ N * 2 ^ s := by
  by_cases ha : a = 0
  · exact ⟨0, by simp [roundToDouble, ha], by simp [roundToDouble, ha]⟩
  · have hbin := binade_le a b k (Nat.pos_of_ne_zero ha) hlt
    have hs : 0 ≤ 52 - max (binade a b) (-1022) := by
      have : max (binade a b) (-1022) ≤ (52 : Int) := max_le (by omega) (by norm_num)
      omega
    obtain ⟨S, hS⟩ := Int.eq_ofNat_of_zero_le hs
    refine ⟨S, ?_, ?_⟩
    · simp only [roundToDouble, if_neg ha, hS, Int.natCast_nonneg, if_true]
    · simp only [roundToDouble, if_neg ha, hS, Int.toNat_ofNat, Int.natCast_nonneg, if_true]
      apply roundHalfEven_le _ _ _ hb
      calc a * 2 ^ S ≤ (N * b) * 2 ^ S := Nat.mul_le_mul_right _ hN
        _ = (N * 2 ^ S) * b := by ring

/-- The rounded value is within half a unit in the last place of the exact fraction. -/
theorem roundToDouble_nearest (a b : Nat) (hb : 0 < b) :
    2 * |(roundToDouble a b).toRat - (a : ℚ) / b| ≤ (2 : ℚ) ^ (roundToDouble a b).e := by
  have qb : (0 : ℚ) < b := by exact_mod_cast hb
  by_cases ha : a = 0
  · simp [roundToDouble, ha, Double.toRat]
  · unfold roundToDouble Double.toRat
    rw [if_neg ha]
    simp only
    split_ifs with hs
    · obtain ⟨S, hS⟩ := Int.eq_ofNat_of_zero_le hs
      simp only [hS, Int.toNat_ofNat, zpow_neg, zpow_natCast]
      have hn := roundHalfEven_nearest (a * 2 ^ S) b hb
      have hnq : 2 * |((roundHalfEven (a * 2 ^ S) b : Nat) : ℚ) * b - (a : ℚ) * 2 ^ S| ≤ b := by
        have := (Int.cast_le (R := ℚ)).mpr hn
        push_cast at this
        simpa using this
      have p2 : (0 : ℚ) < 2 ^ S := by positivity
      have key : ((roundHalfEven (a * 2 ^ S) b : Nat) : ℚ) * ((2 : ℚ) ^ S)⁻¹ - (a : ℚ) / b =
          (((roundHalfEven (a * 2 ^ S) b : Nat) : ℚ) * b - (a : ℚ) * 2 ^ S) / ((2 : ℚ) ^ S * b) := by
        field_simp
        ring
      rw [key, abs_div, abs_of_pos (by positivity : (0 : ℚ) < 2 ^ S * b), ← mul_div_assoc,
        div_le_iff₀ (by positivity)]
      calc 2 * |((roundHalfEven (a * 2 ^ S) b : Nat) : ℚ) * b - (a : ℚ) * 2 ^ S| ≤ b := hnq
        _ = ((2 : ℚ) ^ S)⁻¹ * ((2 : ℚ) ^ S * b) := by field_simp
    · have hs' : 0 ≤ -(52 - max (binade a b) (-1022)) := by omega
      obtain ⟨T, hT⟩ := Int.eq_ofNat_of_zero_le hs'
      simp only [hT, Int.toNat_ofNat, zpow_natCast]
      have p2 : (0 : Nat) < b * 2 ^ T := by positivity
      have hn := roundHalfEven_nearest a (b * 2 ^ T) p2
      have hnq : 2 * |((roundHalfEven a (b * 2 ^ T) : Nat) : ℚ) * (b * 2 ^ T) - (a : ℚ)| ≤
          b * 2 ^ T := by
        have := (Int.cast_le (R := ℚ)).mpr hn
        push_cast at this
        simpa using this
      have key : ((roundHalfEven a (b * 2 ^ T) : Nat) : ℚ) * (2 : ℚ) ^ T - (a : ℚ) / b =
          (((roundHalfEven a (b * 2 ^ T) : Nat) : ℚ) * (b * 2 ^ T) - (a : ℚ)) / b := by
        field_simp
        ring
      rw [key, abs_div, abs_of_pos qb, ← mul_div_assoc, div_le_iff₀ qb]
      linarith

/-- The function `mathRound` is `⌊x + 1/2⌋` on the exact value. -/
theorem mathRound_eq_floor (x : Double) : mathRound x = ⌊x.toRat + 1 / 2⌋ := by
  unfold mathRound Double.toRat
  split_ifs with h
  · obtain ⟨E, hE⟩ := Int.eq_ofNat_of_zero_le h
    rw [hE, Int.toNat_ofNat, zpow_natCast]
    symm
    rw [Int.floor_eq_iff]
    push_cast
    constructor <;> linarith
  · have h' : 0 ≤ -x.e := by omega
    obtain ⟨K, hK⟩ := Int.eq_ofNat_of_zero_le h'
    have hxe : x.e = -(K : Int) := by omega
    rw [hK, Int.toNat_ofNat, hxe, zpow_neg, zpow_natCast]
    have p2 : (0 : ℚ) < 2 ^ K := by positivity
    have key : (x.m : ℚ) * ((2 : ℚ) ^ K)⁻¹ + 1 / 2 =
        (((2 * x.m + 2 ^ K : Nat) : Int) : ℚ) / ((2 ^ (K + 1) : Nat) : ℚ) := by
      push_cast
      rw [pow_succ]
      field_simp
      ring
    rw [key, Rat.floor_intCast_div_natCast]
    norm_cast

theorem fdiv_le_one (p t : Nat) (ht : 0 < t) (hp : p ≤ t) :
    ∃ s : Nat, (fdiv p t).e = -(s : Int) ∧ (fdiv p t).m ≤ 2 ^ s := by
  have := roundToDouble_le p t 1 0 ht (by norm_num) (by omega) (by omega)
  simpa [fdiv] using this

theorem fmul_hundred_le (x : Double) (s : Nat) (he : x.e = -(s : Int)) (hm : x.m ≤ 2 ^ s) :
    ∃ s' : Nat, (fmul x 100).e = -(s' : Int) ∧ (fmul x 100).m ≤ 100 * 2 ^ s' := by
  unfold fmul
  by_cases h0 : 0 ≤ x.e
  · have hs0 : s = 0 := by omega
    subst hs0
    have hm1 : x.m ≤ 1 := by simpa using hm
    have hx : x.e = 0 := by simpa using he
    rw [if_pos h0, hx]
    exact roundToDouble_le _ 1 100 6 (by norm_num) (by norm_num)
      (by simp; omega) (by simp; omega)
  · rw [if_neg h0, he]
    have h2 : (0 : Nat) < 2 ^ s := by positivity
    simp only [neg_neg, Int.toNat_ofNat]
    exact roundToDouble_le _ _ 100 6 h2 (by norm_num)
      (by nlinarith) (by norm_num; nlinarith)

theorem mathRound_le_hundred (x : Double) (s : Nat) (he : x.e = -(s : Int))
    (hm : x.m ≤ 100 * 2 ^ s) : 0 ≤ mathRound x ∧ mathRound x ≤ 100 := by
  unfold mathRound
  by_cases h0 : 0 ≤ x.e
  · have hs0 : s = 0 := by omega
    subst hs0
    have hx : x.e = 0 := by simpa using he
    rw [if_pos h0, hx]
    simp at hm ⊢
    exact_mod_cast hm
  · rw [if_neg h0, he]
    simp only [neg_neg, Int.toNat_ofNat]
    have h2 : (0 : Nat) < 2 ^ s := by positivity
    have : (2 * x.m + 2 ^ s) / 2 ^ (s + 1) < 101 := by
      rw [Nat.div_lt_iff_lt_mul (by positivity), pow_succ]
      nlinarith
    constructor
    · exact Int.natCast_nonneg _
    · exact_mod_cast Nat.lt_succ_iff.mp this

theorem score_bounds (r : AxeResults) : 0 ≤ score r ∧ score r ≤ 100 := by
  unfold score
  by_cases ht : totalChecks r > 0
  · rw [if_pos ht]
    have hp : passedChecks r ≤ totalChecks r := by
      unfold passedChecks totalChecks; omega
    obtain ⟨s, he, hm⟩ := fdiv_le_one _ _ ht hp
    obtain ⟨s', he', hm'⟩ := fmul_hundred_le _ s he hm
    exact mathRound_le_hundred _ s' he' hm'
  · rw [if_neg ht]; norm_num

/-- C1: with 23 passes among 40 checks the exact percentage is 57.5, whose round-half-up is
58, but the handler's `Math.round((23 / 40) * 100)` is 57: the double product is
`8092405580431359 * 2 ^ (-47)`, just below 57.5. -/
theorem score_half_boundary_23_of_40 :
    totalChecks (auditOfCounts 17 23 0 0) = 40 ∧
      passedChecks (auditOfCounts 17 23 0 0) = 23 ∧
      fmul (fdiv 23 40) 100 = ⟨8092405580431359, -47⟩ ∧
      (fmul (fdiv 23 40) 100).toRat < 115 / 2 ∧
      score (auditOfCounts 17 23 0 0) = 57 ∧
      roundHalfUpPercent 23 40 = 58 := by
  have hprod : fmul (fdiv 23 40) 100 = ⟨8092405580431359, -47⟩ := by decide
  refine ⟨by decide, by decide, hprod, ?_, by decide, ?_⟩
  · rw [hprod]
    norm_num [Double.toRat]
  · unfold roundHalfUpPercent
    rw [Int.floor_eq_iff]
    norm_num

/-- Sample scores, as a JavaScript engine computes them: thirds, a `.5` boundary the doubles
hit exactly (1 of 8 is 12.5), and a full pass. -/
theorem score_samples :
    score (auditOfCounts 2 1 0 0) = 33 ∧ score (auditOfCounts 1 2 0 0) = 67 ∧
      score (auditOfCounts 7 1 0 0) = 13 ∧ score (auditOfCounts 0 10 0 3) = 100 := by
  decide

/-- C2: when there are no violations, passes or incomplete findings (`totalChecks = 0`), the
score, also the one in the summary, is `0`, whatever the inapplicable findings are. -/
theorem score_zero_of_no_checks (r : AxeResults) (h : totalChecks r = 0) :
    score r = 0 ∧ (summary r).score = 0 := by
  have hs : score r = 0 := by
    unfold score
    rw [if_neg (by omega)]
  exact ⟨hs, hs⟩

/-- An audit with seven inapplicable findings and nothing else scores `0`. -/
theorem score_zero_of_no_checks_witness :
    totalChecks (auditOfCounts 0 0 0 7) = 0 ∧
      score (auditOfCounts 0 0 0 7) = 0 ∧ (summary (auditOfCounts 0 0 0 7)).score = 0 :=
  ⟨by decide, score_zero_of_no_checks (auditOfCounts 0 0 0 7) (by decide)⟩

/-- C3: for every raw audit result, the score of the report and the score of its summary are
the same integer, between 0 and 100. -/
theorem report_score_range (pageUrl pageTitle axeVersion analysisTime : String)
    (options : Options) (userId : String) (r : AxeResults) :
    0 ≤ (mkReport pageUrl pageTitle axeVersion analysisTime options userId r).score ∧
      (mkReport pageUrl pageTitle axeVersion analysisTime options userId r).score ≤ 100 ∧
      0 ≤ (mkReport pageUrl pageTitle axeVersion analysisTime options userId r).summary.score ∧
      (mkReport pageUrl pageTitle axeVersion analysisTime options userId r).summary.score ≤ 100 :=
  ⟨(score_bounds r).1, (score_bounds r).2, (score_bounds r).1, (score_bounds r).2⟩

/-! ### Categories, severities and WCAG levels -/

/-- C4: `categorizeViolation` returns the category of the first substring group, in the
priority order, that occurs in the rule id, else `WCAG Compliance` when the tags contain
`wcag2a` or `wcag2aa`, else `General Accessibility`; the result is one of the seven taxonomy
values; and the rule id `image-alt` gives `Images & Media`. -/
theorem categorizeViolation_first_match (v : Finding) :
    categorizeViolation v = categoryBySpec v.id v.tags ∧
      categorizeViolation v ∈ taxonomy ∧
      categorizeViolation { v with id := "image-alt" } = "Images & Media" := by
  refine ⟨?_, ?_, ?_⟩
  · simp only [categorizeViolation, categoryBySpec, categoryGroups, List.find?, List.any,
      Bool.or_false, Bool.or_assoc]
    generalize (includes v.id "color" || includes v.id "contrast") = b1
    generalize (includes v.id "image" || includes v.id "alt") = b2
    generalize (includes v.id "form" || (includes v.id "label" || includes v.id "input")) = b3
    generalize
      (includes v.id "heading" || (includes v.id "structure" || includes v.id "landmark")) = b4
    generalize
      (includes v.id "keyboard" || (includes v.id "focus" || includes v.id "tabindex")) = b5
    cases b1 <;> cases b2 <;> cases b3 <;> cases b4 <;> cases b5 <;> simp
  · simp only [categorizeViolation, taxonomy]
    split_ifs <;> simp
  · have h1 : includes "image-alt" "color" = false := by decide
    have h2 : includes "image-alt" "contrast" = false := by decide
    have h3 : includes "image-alt" "image" = true := by decide
    simp [categorizeViolation, h1, h2, h3]

/-- The full case table of `mapImpactToSeverity`. -/
theorem mapImpactToSeverity_eq (key : String) :
    mapImpactToSeverity (some key) =
      if key = "critical" then JsValue.str "critical"
      else if key = "serious" then JsValue.str "high"
      else if key = "moderate" then JsValue.str "medium"
      else if key = "minor" then JsValue.str "low"
      else if objectPrototypeKeys.contains key then JsValue.inherited key
      else JsValue.str "medium" := by
  simp only [mapImpactToSeverity, severityMapGet, severityMap, List.lookup]
  by_cases h1 : key = "critical"
  · simp [h1]
  by_cases h2 : key = "serious"
  · subst h2; simp
  by_cases h3 : key = "moderate"
  · subst h3; simp
  by_cases h4 : key = "minor"
  · subst h4; simp
  have e1 : (key == "critical") = false := by simpa using h1
  have e2 : (key == "serious") = false := by simpa using h2
  have e3 : (key == "moderate") = false := by simpa using h3
  have e4 : (key == "minor") = false := by simpa using h4
  simp only [e1, e2, e3, e4, if_neg h1, if_neg h2, if_neg h3, if_neg h4]
  split_ifs <;> rfl

/-- C5: on the four recognised impacts, on `none` and on a missing impact
`mapImpactToSeverity` follows the table, but for the unrecognised string `constructor` the
lookup `severityMap[impact]` finds the member inherited from `Object.prototype`, which is
truthy, so the result is that member and not `medium`. -/
theorem mapImpactToSeverity_constructor :
    mapImpactToSeverity (some "critical") = JsValue.str "critical" ∧
      mapImpactToSeverity (some "serious") = JsValue.str "high" ∧
      mapImpactToSeverity (some "moderate") = JsValue.str "medium" ∧
      mapImpactToSeverity (some "minor") = JsValue.str "low" ∧
      mapImpactToSeverity (some "none") = JsValue.str "medium" ∧
      mapImpactToSeverity none = JsValue.str "medium" ∧
      mapImpactToSeverity (some "constructor") = JsValue.inherited "constructor" ∧
      mapImpactToSeverity (some "constructor") ≠ JsValue.str "medium" := by
  decide

theorem includesChars_of_append (s p q : List Char) (h : includesChars s (p ++ q) = true) :
    includesChars s p = true := by
  induction s with
  | nil =>
    cases p with
    | nil => rfl
    | cons a l => simp [includesChars] at h
  | cons c cs ih =>
    simp only [includesChars, Bool.or_eq_true] at h ⊢
    rcases h with h | h
    · left
      rw [List.isPrefixOf_iff_prefix] at h ⊢
      exact (List.prefix_append p q).trans h
    · right
      exact ih h

theorem includes_wcag2aa_of_wcag2aaa (t : String) (h : includes t "wcag2aaa" = true) :
    includes t "wcag2aa" = true :=
  includesChars_of_append t.data "wcag2aa".data ['a'] h

theorem includes_wcag2a_of_wcag2aa (t : String) (h : includes t "wcag2aa" = true) :
    includes t "wcag2a" = true :=
  includesChars_of_append t.data "wcag2a".data ['a'] h

/-- C6, the claim as stated fails: in the list `wcag2a, wcag2aaa` both tags are present, but
`find` stops at `wcag2a`, and the level is `A`. -/
theorem extractWcagLevel_a_before_aaa :
    "wcag2a" ∈ ["wcag2a", "wcag2aaa"] ∧ "wcag2aaa" ∈ ["wcag2a", "wcag2aaa"] ∧
      extractWcagLevel ["wcag2a", "wcag2aaa"] = "A" ∧
      extractWcagLevel ["wcag2a", "wcag2aaa"] ≠ "AAA" ∧
      extractWcagLevel ["wcag2aaa", "wcag2a"] = "AAA" := by
  decide

/-- C6, amended: the level is decided by the first tag, in list order, that matches the
pattern, and by that tag alone: the result is the one of the one-element list of that tag, and
it is `AAA`, not `A`, whenever that tag contains `wcag2aaa`. -/
theorem extractWcagLevel_first_matching_tag (tags : List String) (t : String)
    (hfind : tags.find? matchesWcag = some t) :
    extractWcagLevel tags = extractWcagLevel [t] ∧
      (includes t "wcag2aaa" = true →
        extractWcagLevel tags = "AAA" ∧ extractWcagLevel tags ≠ "A") := by
  have hm : matchesWcag t = true := List.find?_some hfind
  have h1 : extractWcagLevel [t] = extractWcagLevel tags := by
    simp only [extractWcagLevel, List.find?, hm, hfind]
  refine ⟨h1.symm, fun h3 => ?_⟩
  have h2 := includes_wcag2aa_of_wcag2aaa t h3
  have h0 := includes_wcag2a_of_wcag2aa t h2
  have : extractWcagLevel tags = "AAA" := by
    simp [extractWcagLevel, hfind, h0, h2, h3]
  exact ⟨this, by rw [this]; decide⟩

/-- In `cat.color, wcag2aaa, wcag2a` the first matching tag is `wcag2aaa`. -/
theorem extractWcagLevel_first_matching_tag_witness :
    List.find? matchesWcag ["cat.color", "wcag2aaa", "wcag2a"] = some "wcag2aaa" ∧
      extractWcagLevel ["cat.color", "wcag2aaa", "wcag2a"] = extractWcagLevel ["wcag2aaa"] ∧
      extractWcagLevel ["cat.color", "wcag2aaa", "wcag2a"] = "AAA" ∧
      extractWcagLevel ["cat.color", "wcag2aaa", "wcag2a"] ≠ "A" :=
  ⟨by decide,
   (extractWcagLevel_first_matching_tag ["cat.color", "wcag2aaa", "wcag2a"] "wcag2aaa"
      (by decide)).1,
   (extractWcagLevel_first_matching_tag ["cat.color", "wcag2aaa", "wcag2a"] "wcag2aaa"
      (by decide)).2 (by decide)⟩

/-! ### Upper case -/

theorem specialUpperCase_ne_nil : ∀ e ∈ specialUpperCase, e.2 ≠ [] := by decide

theorem lookup_mem (l : List (Nat × List Nat)) (n : Nat) (u : List Nat)
    (h : l.lookup n = some u) : (n, u) ∈ l := by
  induction l with
  | nil => simp at h
  | cons e rest ih =>
    obtain ⟨k, v⟩ := e
    by_cases hk : n = k
    · subst hk
      simp [List.lookup] at h
      subst h
      exact List.mem_cons_self _ _
    · have hb : (n == k) = false := by simpa using hk
      simp only [List.lookup, hb] at h
      exact List.mem_cons_of_mem _ (ih h)

/-- No code point has an empty upper case. -/
theorem upperCodePoints_ne_nil (n : Nat) : upperCodePoints n ≠ [] := by
  unfold upperCodePoints
  split
  · rename_i upper h
    exact specialUpperCase_ne_nil _ (lookup_mem _ _ _ h)
  · split <;> simp

/-- On the ASCII range the upper case moves `a`–`z` (97–122) to `A`–`Z` and keeps every other
code point. -/
theorem upperCodePoints_ascii (n : Nat) (h : n < 128) :
    upperCodePoints n = [if 97 ≤ n ∧ n ≤ 122 then n - 32 else n] := by
  interval_cases n <;> rfl

theorem upperChars_ascii (cs : List Char) (h : ∀ c ∈ cs, c.toNat < 128) :
    cs.flatMap (fun c => (upperCodePoints c.toNat).map Char.ofNat) =
      cs.map (fun c => if 97 ≤ c.toNat ∧ c.toNat ≤ 122 then Char.ofNat (c.toNat - 32) else c) := by
  induction cs with
  | nil => simp
  | cons c cs ih =>
    have hc := h c (List.mem_cons_self _ _)
    simp only [List.flatMap_cons, List.map_cons]
    rw [ih (fun c' hc' => h c' (List.mem_cons_of_mem _ hc')), upperCodePoints_ascii _ hc]
    by_cases hl : 97 ≤ c.toNat ∧ c.toNat ≤ 122
    · simp [hl]
    · simp only [hl, if_false, List.map_cons, List.map_nil, List.singleton_append]
      congr 1
      exact Char.ofNat_toNat c

/-- Upper-casing never shortens a string. -/
theorem length_le_toUpperCase (s : String) : s.data.length ≤ (toUpperCase s).data.length := by
  unfold toUpperCase
  simp only
  induction s.data with
  | nil => simp
  | cons c cs ih =>
    have h1 := upperCodePoints_ne_nil c.toNat
    have h2 : 1 ≤ ((upperCodePoints c.toNat).map Char.ofNat).length := by
      rw [List.length_map]
      exact List.length_pos.mpr h1
    simp only [List.flatMap_cons, List.length_append, List.length_cons]
    omega

/-- Upper-casing on sample strings: ASCII letters, a letter with a one-letter upper case
outside ASCII, and letters whose upper case is longer than one code point. -/
theorem toUpperCase_samples :
    toUpperCase "wcag22aa" = "WCAG22AA" ∧ toUpperCase "wcag3aé" = "WCAG3AÉ" ∧
      toUpperCase "wcag3aß" = "WCAG3ASS" ∧ toUpperCase "wcag3aﬁ" = "WCAG3AFI" ∧
      toUpperCase "WCAG 2.2 aa" = "WCAG 2.2 AA" := by
  decide

/-- C7, the claim as stated fails: the tag `wcag22aa` matches the pattern but contains neither
`wcag2a` nor `wcag21aa`, and the level is the tag in upper case, none of the five values; so
it is for `wcag3aß`, whose upper case `WCAG3ASS` is one character longer than the tag. -/
theorem extractWcagLevel_wcag22aa :
    extractWcagLevel ["wcag22aa"] = "WCAG22AA" ∧ extractWcagLevel ["wcag22aa"] ∉ wcagLevels ∧
      extractWcagLevel ["wcag3aß"] = "WCAG3ASS" ∧ extractWcagLevel ["wcag3aß"] ∉ wcagLevels := by
  decide

/-- C7, amended: the level is one of `A`, `AA`, `AAA`, `AA (2.1)`, `N/A`, or else it is the
first matching tag in upper case, which happens when that tag contains neither `wcag2a` nor
`wcag21aa`.  The upper case is spelled out: the characters of the level are the upper cases of
the code points of the tag, in order, so the level is at least as long as the tag; and for a
tag of ASCII characters they are the characters of the tag with `a`–`z` (97–122) moved to
`A`–`Z` and all others kept. -/
theorem extractWcagLevel_values (tags : List String) :
    extractWcagLevel tags ∈ wcagLevels ∨
      ∃ t, tags.find? matchesWcag = some t ∧ includes t "wcag2a" = false ∧
        includes t "wcag21aa" = false ∧
        (extractWcagLevel tags).data =
          t.data.flatMap (fun c => (upperCodePoints c.toNat).map Char.ofNat) ∧
        t.data.length ≤ (extractWcagLevel tags).data.length ∧
        ((∀ c ∈ t.data, c.toNat < 128) →
          (extractWcagLevel tags).data =
            t.data.map (fun c =>
              if 97 ≤ c.toNat ∧ c.toNat ≤ 122 then Char.ofNat (c.toNat - 32) else c)) := by
  cases hfind : tags.find? matchesWcag with
  | none =>
    left
    have h : extractWcagLevel tags = "N/A" := by simp only [extractWcagLevel, hfind]
    rw [h]; decide
  | some t =>
    have hcascade : extractWcagLevel tags =
        if (includes t "wcag2a" && !includes t "wcag2aa") = true then "A"
        else if (includes t "wcag2aa" && !includes t "wcag2aaa") = true then "AA"
        else if includes t "wcag2aaa" = true then "AAA"
        else if includes t "wcag21aa" = true then "AA (2.1)"
        else toUpperCase t := by
      simp only [extractWcagLevel, hfind]
    rw [hcascade]
    split_ifs with h1 h2 h3 h4
    · left; decide
    · left; decide
    · left; decide
    · left; decide
    · right
      have e3 : includes t "wcag2aaa" = false := by simpa using h3
      have e2 : includes t "wcag2aa" = false := by
        cases h : includes t "wcag2aa" with
        | false => rfl
        | true => exact absurd (by rw [h, e3]; rfl) h2
      have e1 : includes t "wcag2a" = false := by
        cases h : includes t "wcag2a" with
        | false => rfl
        | true => exact absurd (by rw [h, e2]; rfl) h1
      have e4 : includes t "wcag21aa" = false := by simpa using h4
      exact ⟨t, rfl, e1, e4, rfl, length_le_toUpperCase t, upperChars_ascii t.data⟩

/-! ### History and the auth middleware -/

/-- One analyze request leaves the collection as it is, or appends the one document built for
the authenticated requester. -/
theorem analyzeRoute_results (verify : String → Option Decoded) (urlParses : String → Bool)
    (dev : Bool) (req : AnalyzeRequest) (w : World) :
    (analyzeRoute verify urlParses dev req.run req.header req.url req.options w).world.results
        = w.results ∨
      ∃ u axe title, auth verify req.header = AuthOutcome.next (some u) ∧
        (analyzeRoute verify urlParses dev req.run req.header req.url req.options w).world.results
          = w.results ++ [savedDoc req.run u.id req.options axe title] := by
  unfold analyzeRoute protect
  cases hauth : auth verify req.header with
  | respond status msg => left; rfl
  | next user =>
    simp only
    unfold analyzeHandler
    cases user with
    | none => left; rfl
    | some u =>
      simp only
      split
      · left; rfl
      · split
        · left; rfl
        · repeat' split
          all_goals first
            | (left; rfl)
            | (right; exact ⟨u, _, _, rfl, rfl⟩)

/-- Every document in the collection after a sequence of analyze requests was there before
or was built by one of the requests for its authenticated requester. -/
theorem runAnalyses_results (verify : String → Option Decoded) (urlParses : String → Bool)
    (dev : Bool) (reqs : List AnalyzeRequest) (w : World) (d : AnalysisDoc)
    (hd : d ∈ (runAnalyses verify urlParses dev w reqs).results) :
    d ∈ w.results ∨
      ∃ req ∈ reqs, ∃ u axe title, auth verify req.header = AuthOutcome.next (some u) ∧
        d = savedDoc req.run u.id req.options axe title := by
  induction reqs generalizing w with
  | nil => left; simpa [runAnalyses] using hd
  | cons req rest ih =>
    have hstep : runAnalyses verify urlParses dev w (req :: rest) =
        runAnalyses verify urlParses dev
          (analyzeRoute verify urlParses dev req.run req.header req.url req.options w).world
          rest := by
      simp [runAnalyses]
    rw [hstep] at hd
    rcases ih _ hd with h | ⟨r, hr, u, axe, title, hu, hdoc⟩
    · rcases analyzeRoute_results verify urlParses dev req w with h1 | ⟨u, axe, title, hu, h1⟩
      · left; rw [h1] at h; exact h
      · rw [h1] at h
        rcases List.mem_append.mp h with h2 | h2
        · left; exact h2
        · right
          exact ⟨req, List.mem_cons_self _ _, u, axe, title, hu, by simpa using h2⟩
    · right
      exact ⟨r, List.mem_cons_of_mem _ hr, u, axe, title, hu, hdoc⟩

theorem mem_listRecent (results : List AnalysisDoc) (userId : String) (d : AnalysisDoc)
    (hd : d ∈ listRecent results userId) : d ∈ results ∧ d.data.userId = userId := by
  unfold listRecent at hd
  have h1 := List.mem_of_mem_take hd
  have h2 := (List.perm_insertionSort newerFirst _).subset h1
  simpa [ownedBy] using h2

/-- C8: after any sequence of analyze requests on an empty store, `GET /api/history` for the
subject `a` returns documents that all carry `a`'s identity as `userId`, each built by a
request that `a` authenticated; no document built for a subject `b` with another identity is
among them. -/
theorem history_only_own_reports (verify : String → Option Decoded)
    (urlParses : String → Bool) (dev : Bool) (reqs : List AnalyzeRequest)
    (header : Option String) (a : TokenUser)
    (hA : auth verify header = AuthOutcome.next (some a)) :
    (historyRoute verify dev none header
        (runAnalyses verify urlParses dev emptyWorld reqs)).response =
      some { status := 200
             body := Body.history
               (listRecent (runAnalyses verify urlParses dev emptyWorld reqs).results a.id) } ∧
    ∀ d ∈ listRecent (runAnalyses verify urlParses dev emptyWorld reqs).results a.id,
      d.data.userId = a.id ∧
      (∃ req ∈ reqs, ∃ axe title, auth verify req.header = AuthOutcome.next (some a) ∧
        d = savedDoc req.run a.id req.options axe title) ∧
      (∀ b : TokenUser, b.id ≠ a.id → ∀ req ∈ reqs, ∀ axe title,
        d ≠ savedDoc req.run b.id req.options axe title) := by
  refine ⟨?_, ?_⟩
  · simp [historyRoute, protect, hA, historyHandler]
  · intro d hd
    obtain ⟨hmem, hid⟩ := mem_listRecent _ _ _ hd
    refine ⟨hid, ?_, ?_⟩
    · rcases runAnalyses_results verify urlParses dev reqs emptyWorld d hmem with
        h | ⟨req, hreq, u, axe, title, hu, hdoc⟩
      · simp [emptyWorld] at h
      · have hua : u = a := by
          have : u.id = a.id := by
            rw [← hid, hdoc]; rfl
          cases u; cases a; simp_all
        subst hua
        exact ⟨req, hreq, axe, title, hu, hdoc⟩
    · intro b hb req _ axe title hdoc
      apply hb
      rw [← hid, hdoc]; rfl

/-- The history of `A` after one request of `B` and one of `A`. -/
theorem history_only_own_reports_witness :
    (historyRoute demoVerify false none (some "token-a")
        (runAnalyses demoVerify (fun _ => true) false emptyWorld demoRequests)).response =
      some { status := 200
             body := Body.history
               (listRecent
                 (runAnalyses demoVerify (fun _ => true) false emptyWorld demoRequests).results
                 "A") } ∧
    ∀ d ∈ listRecent
        (runAnalyses demoVerify (fun _ => true) false emptyWorld demoRequests).results "A",
      d.data.userId = "A" ∧
      (∃ req ∈ demoRequests, ∃ axe title,
        auth demoVerify req.header = AuthOutcome.next (some { id := "A" }) ∧
        d = savedDoc req.run "A" req.options axe title) ∧
      (∀ b : TokenUser, b.id ≠ "A" → ∀ req ∈ demoRequests, ∀ axe title,
        d ≠ savedDoc req.run b.id req.options axe title) :=
  history_only_own_reports demoVerify (fun _ => true) false demoRequests (some "token-a")
    { id := "A" } (by decide)

/-- The witness sequence is not vacuous: `A`'s history holds exactly the document of `A`'s
request, and the store holds two documents. -/
theorem demo_history_nonempty :
    ((runAnalyses demoVerify (fun _ => true) false emptyWorld demoRequests).results.map
        (fun d => (d.data.userId, d.timestamp))) = [("B", 10), ("A", 20)] ∧
      (listRecent (runAnalyses demoVerify (fun _ => true) false emptyWorld demoRequests).results
        "A").map (fun d => (d.data.userId, d.timestamp)) = [("A", 20)] := by
  decide

/-- C9: for every store and every owner, `GET /api/history` answers 200 with a list `returned`
such that, with `rest` the omitted documents, `returned ++ rest` is a rearrangement of the
documents stored in `w.results` whose `userId` is the owner's identity (so every returned
document is a stored document of the owner), `returned` has `min 50 n` elements for the number
`n` of such stored documents, its timestamps are non-increasing along the list, and no omitted
document is newer than a returned one. -/
theorem history_newest_fifty (dev : Bool) (w : World) (a : TokenUser) :
    ∃ returned rest : List AnalysisDoc,
      (historyHandler dev none (some a) w).response =
        some { status := 200, body := Body.history returned } ∧
      (returned ++ rest).Perm (w.results.filter (fun d => decide (d.data.userId = a.id))) ∧
      (∀ d, d ∈ returned ++ rest ↔ d ∈ w.results ∧ d.data.userId = a.id) ∧
      returned.length = min 50 (w.results.countP (fun d => decide (d.data.userId = a.id))) ∧
      returned.Pairwise (fun x y => y.timestamp ≤ x.timestamp) ∧
      ∀ r ∈ returned, ∀ o ∈ rest, o.timestamp ≤ r.timestamp := by
  have hown : ownedBy w.results a.id =
      w.results.filter (fun d => decide (d.data.userId = a.id)) := rfl
  have hsorted := List.sorted_insertionSort newerFirst (ownedBy w.results a.id)
  have hperm := List.perm_insertionSort newerFirst (ownedBy w.results a.id)
  have hsplit := List.take_append_drop 50 ((ownedBy w.results a.id).insertionSort newerFirst)
  refine ⟨listRecent w.results a.id,
    ((ownedBy w.results a.id).insertionSort newerFirst).drop 50, rfl, ?_, ?_, ?_, ?_, ?_⟩
  · unfold listRecent
    rw [hsplit, ← hown]
    exact hperm
  · intro d
    unfold listRecent
    rw [hsplit, hperm.mem_iff, hown]
    simp
  · unfold listRecent
    rw [List.length_take, hperm.length_eq, hown, List.countP_eq_length_filter]
  · unfold listRecent
    exact hsorted.sublist (List.take_sublist _ _)
  · intro r hr o ho
    unfold listRecent at hr
    rw [← hsplit] at hsorted
    exact (List.pairwise_append.mp hsorted).2.2 r hr o ho

/-- The store of the sample world extended by 52 documents of `A` with timestamps 1 to 52 and
one of `B`: the history of `A` has 50 entries, starts at timestamp 52 and ends at 3. -/
theorem history_sample_fifty :
    ∃ returned,
      (historyHandler false none (some { id := "A" })
          { users := [], results := manyResults }).response =
        some { status := 200, body := Body.history returned } ∧
      returned.length = 50 ∧ (returned.map (fun d => d.timestamp)).head? = some 52 ∧
      (returned.map (fun d => d.timestamp)).getLast? = some 3 ∧
      ∀ d ∈ returned, d.data.userId = "A" := by
  refine ⟨listRecent manyResults "A", rfl, ?_, ?_, ?_, ?_⟩ <;> decide

/-- C10: on the three protected routes, when the `x-auth-token` header is absent or empty or
the token does not verify, the answer is 401 with a `msg` body, the database is untouched and
no call is made, whatever the handler; `auth` calls `next()` exactly when a non-empty token
verifies, and then each route is its handler run with `req.user` set to the token's `user`
payload. -/
theorem protected_routes_gate (verify : String → Option Decoded) (urlParses : String → Bool)
    (dev : Bool) (findError : Option String) (run : PageRun) (url : Option String)
    (options : Options) (header : Option String) (w : World) :
    ((header = none ∨ header = some "" ∨ ∃ token, header = some token ∧ verify token = none) →
      ∃ msg, auth verify header = AuthOutcome.respond 401 msg ∧
        (∀ handler : Option TokenUser → World → Outcome, protect verify header handler w =
          { response := some { status := 401, body := Body.msg msg }, world := w, trace := [] }) ∧
        meRoute verify findError header w =
          { response := some { status := 401, body := Body.msg msg }, world := w, trace := [] } ∧
        analyzeRoute verify urlParses dev run header url options w =
          { response := some { status := 401, body := Body.msg msg }, world := w, trace := [] } ∧
        historyRoute verify dev findError header w =
          { response := some { status := 401, body := Body.msg msg }, world := w, trace := [] }) ∧
    (∀ user, auth verify header = AuthOutcome.next user ↔
      ∃ token decoded, header = some token ∧ token ≠ "" ∧ verify token = some decoded ∧
        decoded.user = user) ∧
    (∀ user, auth verify header = AuthOutcome.next user →
      meRoute verify findError header w = meHandler findError user w ∧
      analyzeRoute verify urlParses dev run header url options w =
        analyzeHandler urlParses dev run url options user w ∧
      historyRoute verify dev findError header w = historyHandler dev findError user w) := by
  refine ⟨?_, ?_, ?_⟩
  · intro h
    have hresp : ∃ msg, auth verify header = AuthOutcome.respond 401 msg := by
      rcases h with h | h | ⟨token, h, hv⟩
      · exact ⟨_, by rw [h]; rfl⟩
      · exact ⟨_, by rw [h]; rfl⟩
      · subst h
        by_cases ht : token = ""
        · exact ⟨"No token, authorization denied", by simp [auth, ht]⟩
        · exact ⟨"Token is not valid", by simp [auth, ht, hv]⟩
    obtain ⟨msg, hmsg⟩ := hresp
    refine ⟨msg, hmsg, ?_, ?_, ?_, ?_⟩
    · intro handler; simp [protect, hmsg]
    · simp [meRoute, protect, hmsg]
    · simp [analyzeRoute, protect, hmsg]
    · simp [historyRoute, protect, hmsg]
  · intro user
    constructor
    · intro h
      cases header with
      | none => simp [auth] at h
      | some token =>
        by_cases ht : token = ""
        · simp [auth, ht] at h
        · cases hv : verify token with
          | none => simp [auth, ht, hv] at h
          | some decoded =>
            simp [auth, ht, hv] at h
            exact ⟨token, decoded, rfl, ht, hv, h⟩
    · rintro ⟨token, decoded, rfl, ht, hv, rfl⟩
      simp [auth, ht, hv]
  · intro user h
    simp [meRoute, analyzeRoute, historyRoute, protect, h]

/-- A request without the header is answered 401 on each protected route. -/
theorem protected_routes_gate_witness :
    ∃ msg, auth demoVerify none = AuthOutcome.respond 401 msg ∧
      (∀ handler : Option TokenUser → World → Outcome, protect demoVerify none handler emptyWorld =
        { response := some { status := 401, body := Body.msg msg }, world := emptyWorld,
          trace := [] }) ∧
      meRoute demoVerify none none emptyWorld =
        { response := some { status := 401, body := Body.msg msg }, world := emptyWorld,
          trace := [] } ∧
      analyzeRoute demoVerify (fun _ => true) false (demoRun 1) none (some "example.com")
          noOptions emptyWorld =
        { response := some { status := 401, body := Body.msg msg }, world := emptyWorld,
          trace := [] } ∧
      historyRoute demoVerify false none none emptyWorld =
        { response := some { status := 401, body := Body.msg msg }, world := emptyWorld,
          trace := [] } :=
  (protected_routes_gate demoVerify (fun _ => true) false none (demoRun 1) (some "example.com")
    noOptions none emptyWorld).1 (Or.inl rfl)

/-! ### The analyze handler: validation, navigation, teardown -/

/-- C11: for an authenticated analyze request, a missing or empty `url`, or one whose
normalised form the URL parser rejects, is answered 400 `Invalid or missing URL` with the
database untouched and no call made (no launch, navigation, audit or save); for every other
`url` the first call of the handler is the browser launch. -/
theorem analyze_url_validation (verify : String → Option Decoded) (urlParses : String → Bool)
    (dev : Bool) (run : PageRun) (header : Option String) (url : Option String)
    (options : Options) (w : World) (u : TokenUser)
    (hauth : auth verify header = AuthOutcome.next (some u)) :
    ((url = none ∨ url = some "" ∨
        ∃ s, url = some s ∧ isValidUrl urlParses (normalizeUrl s) = false) →
      analyzeRoute verify urlParses dev run header url options w =
        { response := some { status := 400, body := Body.error "Invalid or missing URL" none }
          world := w
          trace := [] }) ∧
    (∀ s, url = some s → s ≠ "" → isValidUrl urlParses (normalizeUrl s) = true →
      ∃ rest, (analyzeRoute verify urlParses dev run header url options w).trace =
        Event.launch :: rest) := by
  have hroute : analyzeRoute verify urlParses dev run header url options w =
      analyzeHandler urlParses dev run url options (some u) w := by
    simp [analyzeRoute, protect, hauth]
  rw [hroute]
  constructor
  · rintro (h | h | ⟨s, h, hs⟩)
    · subst h; rfl
    · subst h; simp [analyzeHandler, invalidUrl]
    · subst h; simp [analyzeHandler, invalidUrl, hs]
  · intro s hs hne hvalid
    subst hs
    simp only [analyzeHandler, hne, hvalid, decide_False, Bool.not_true, Bool.or_self,
      Bool.false_eq_true, if_false]
    repeat' split
    all_goals simp [analyzeFail, auditCalls]

/-- A request of `A` without a `url` is answered 400 before anything is launched. -/
theorem analyze_url_validation_witness :
    analyzeRoute demoVerify (fun _ => true) false (demoRun 1) (some "token-a") none noOptions
        emptyWorld =
      { response := some { status := 400, body := Body.error "Invalid or missing URL" none }
        world := emptyWorld
        trace := [] } :=
  (analyze_url_validation demoVerify (fun _ => true) false (demoRun 1) (some "token-a") none
    noOptions emptyWorld { id := "A" } (by decide)).1 (Or.inl rfl)

/-- C12: `normalizeUrl u` is `u` when `u` starts with `http://` or `https://`, and
`https://` followed by `u` otherwise; `example.com` becomes `https://example.com`; and the
URL of every navigation of the analyze handler is the normalised `url` of the request. -/
theorem normalizeUrl_cases (u : String) :
    (("http://".data <+: u.data ∨ "https://".data <+: u.data) → normalizeUrl u = u) ∧
    (¬ "http://".data <+: u.data → ¬ "https://".data <+: u.data →
      normalizeUrl u = "https://" ++ u) ∧
    normalizeUrl "example.com" = "https://example.com" ∧
    (∀ (urlParses : String → Bool) (dev : Bool) (run : PageRun) (options : Options)
        (user : Option TokenUser) (w : World) (x waitUntil : String) (timeout : Nat),
      Event.goto x waitUntil timeout ∈
          (analyzeHandler urlParses dev run (some u) options user w).trace →
        x = normalizeUrl u) ∧
    Event.goto "https://example.com" "networkidle2" 30000 ∈
      (analyzeRoute demoVerify (fun _ => true) false (demoRun 1) (some "token-a")
        (some "example.com") noOptions emptyWorld).trace := by
  have hp : ∀ p : String, startsWith u p = true ↔ p.data <+: u.data := by
    intro p
    unfold startsWith
    exact List.isPrefixOf_iff_prefix
  refine ⟨?_, ?_, by decide, ?_, by decide⟩
  · intro h
    unfold normalizeUrl
    rcases h with h | h
    · simp [(hp "http://").mpr h]
    · simp [(hp "https://").mpr h]
  · intro h1 h2
    have e1 : startsWith u "http://" = false := by
      rw [Bool.eq_false_iff]; exact fun h => h1 ((hp _).mp h)
    have e2 : startsWith u "https://" = false := by
      rw [Bool.eq_false_iff]; exact fun h => h2 ((hp _).mp h)
    simp [normalizeUrl, e1, e2]
  · intro urlParses dev run options user w x waitUntil timeout h
    unfold analyzeHandler at h
    cases user with
    | none => simp at h
    | some a =>
      simp only at h
      split at h
      · simp [invalidUrl] at h
      · repeat' split at h
        all_goals simp [analyzeFail, auditCalls] at h
        all_goals exact h.1

/-- C13: whenever the browser was launched successfully, the last call of the analyze handler
is `browser.close()`, made once, and a response is sent; since every call of the trace comes
before the response, no response is sent while the launched browser is open.  This covers
success and the failure of `newPage`, navigation, the DOM-ready wait, script injection, the
audit, the save, and of `page.title()`, the one call of the report-building step that can
throw on well-formed findings. -/
theorem browser_closed_on_every_exit (urlParses : String → Bool) (dev : Bool) (run : PageRun)
    (url : Option String) (options : Options) (user : Option TokenUser) (w : World)
    (hlaunch : run.launch = Except.ok ())
    (hran : Event.launch ∈ (analyzeHandler urlParses dev run url options user w).trace) :
    (analyzeHandler urlParses dev run url options user w).trace.getLast? = some Event.close ∧
      Event.close ∉ (analyzeHandler urlParses dev run url options user w).trace.dropLast ∧
      ∃ resp, (analyzeHandler urlParses dev run url options user w).response = some resp := by
  unfold analyzeHandler at hran ⊢
  cases user with
  | none => simp at hran
  | some a =>
    cases url with
    | none => simp [invalidUrl] at hran
    | some s =>
      simp only at hran ⊢
      split at hran
      · simp [invalidUrl] at hran
      · rename_i hvalid
        rw [if_neg hvalid]
        rw [hlaunch]
        simp only
        repeat' split
        all_goals simp [analyzeFail, auditCalls]

/-- In a run where the navigation times out, the browser is closed and 500 is answered. -/
theorem browser_closed_on_every_exit_witness :
    (analyzeHandler (fun _ => true) false
        { demoRun 1 with goto := Except.error "Navigation timeout of 30000 ms exceeded" }
        (some "example.com") noOptions (some { id := "A" }) emptyWorld).trace.getLast?
      = some Event.close ∧
    Event.close ∉ (analyzeHandler (fun _ => true) false
        { demoRun 1 with goto := Except.error "Navigation timeout of 30000 ms exceeded" }
        (some "example.com") noOptions (some { id := "A" }) emptyWorld).trace.dropLast ∧
    ∃ resp, (analyzeHandler (fun _ => true) false
        { demoRun 1 with goto := Except.error "Navigation timeout of 30000 ms exceeded" }
        (some "example.com") noOptions (some { id := "A" }) emptyWorld).response = some resp :=
  browser_closed_on_every_exit (fun _ => true) false
    { demoRun 1 with goto := Except.error "Navigation timeout of 30000 ms exceeded" }
    (some "example.com") noOptions (some { id := "A" }) emptyWorld rfl (by decide)

/-! ### Error responses, registration and login -/

/-- C14: outside development mode the failure answers of the analyze, history, profile,
register and login handlers do not depend on the message of the underlying error, but the
rules handler puts `error.message` into its answer unconditionally: two failures of
`axeCore.getRules()` that differ only in their message get different answers. -/
theorem rules_failure_echoes_message :
    (rulesHandler (Except.error "Cannot find module 'axe-core'") emptyWorld).response =
        some { status := 500
               body := Body.error "Failed to fetch rules"
                 (some "Cannot find module 'axe-core'") } ∧
      (rulesHandler (Except.error "Cannot find module 'axe-core'") emptyWorld).response ≠
        (rulesHandler (Except.error "rules.map is not a function") emptyWorld).response ∧
      (∀ (w : World) (trace : List Event) (launched : Bool) (e₁ e₂ : String),
        analyzeFail false w trace launched e₁ = analyzeFail false w trace launched e₂) ∧
      (∀ (user : Option TokenUser) (w : World) (e₁ e₂ : String),
        historyHandler false (some e₁) user w = historyHandler false (some e₂) user w) ∧
      (∀ (user : Option TokenUser) (w : World) (e₁ e₂ : String),
        meHandler (some e₁) user w = meHandler (some e₂) user w) ∧
      (∀ (run : AuthRun) (username password : Option String) (w : World) (e₁ e₂ : String),
        registerHandler { run with find := Except.error e₁ } username password w =
          registerHandler { run with find := Except.error e₂ } username password w ∧
        registerHandler { run with save := Except.error e₁ } username password w =
          registerHandler { run with save := Except.error e₂ } username password w) ∧
      (∀ (compare : String → String → Except String Bool) (run : AuthRun)
          (username : Option String) (password : BodyField) (w : World) (e₁ e₂ : String),
        loginHandler compare { run with find := Except.error e₁ } username password w =
          loginHandler compare { run with find := Except.error e₂ } username password w ∧
        loginHandler (fun _ _ => Except.error e₁) run username password w =
          loginHandler (fun _ _ => Except.error e₂) run username password w) := by
  refine ⟨by decide, by decide, ?_, ?_, ?_, ?_, ?_⟩
  · intro w trace launched e₁ e₂
    simp [analyzeFail, errorMessage]
  · intro user w e₁ e₂
    cases user <;> simp [historyHandler, errorMessage]
  · intro user w e₁ e₂
    cases user <;> simp [meHandler]
  · intro run username password w e₁ e₂
    constructor
    · simp [registerHandler]
    · unfold registerHandler
      simp only
  · intro compare run username password w e₁ e₂
    constructor
    · simp [loginHandler]
    · unfold loginHandler
      cases password <;> simp [bcryptCompare]

/-- The validator's count written out: the code points that are not U+FE0E or U+FE0F. -/
theorem validatorLength_eq (s : String) :
    validatorLength s =
      (s.data.filter (fun c => decide (c.toNat ≠ 0xFE0E ∧ c.toNat ≠ 0xFE0F))).length := by
  unfold validatorLength
  congr 1
  apply List.filter_congr
  intro c _
  by_cases h1 : c.toNat = 65038 <;> by_cases h2 : c.toNat = 65039 <;>
    simp [isPresentationSelector, h1, h2]

/-- C15, as worded, fails: `alice` exists, the username has 5 and the password 6 characters (the
first or the last of them the selector U+FE0F, which `isLength` does not count), and the answer
is the validation error of the password, not `User already exists`. -/
theorem register_selector_password :
    (∃ d ∈ demoWorld.users, d.username = "alice") ∧ 3 ≤ "alice".length ∧
      6 ≤ "\uFE0Fsecre".length ∧ 6 ≤ "secre\uFE0F".length ∧
      (registerHandler demoAuthRun (some "alice") (some "\uFE0Fsecre") demoWorld).response =
        some { status := 400
               body := Body.errors ["Password must be at least 6 characters long"] } ∧
      (registerHandler demoAuthRun (some "alice") (some "secre\uFE0F") demoWorld).response =
        some { status := 400
               body := Body.errors ["Password must be at least 6 characters long"] } ∧
      (registerHandler demoAuthRun (some "alice") (some "\uFE0Fsecre") demoWorld).response ≠
        some { status := 400, body := Body.msg "User already exists" } := by
  decide

/-- C15, amended: a registration whose username is already in the store leaves the store
unchanged, saves no user and is not answered with a token.  Lengths are counted as `isLength`
counts them, in code points other than the selectors U+FE0E and U+FE0F: with at least 3 in the
username and at least 6 in the password the answer is 400 `User already exists` when the lookup
itself works; with fewer in either the answer is the 400 list of validation errors. -/
theorem register_existing_username (run : AuthRun) (username password : String) (w : World)
    (hex : ∃ d ∈ w.users, d.username = username) :
    (registerHandler run (some username) (some password) w).world = w ∧
      (∀ doc, Event.saveUser doc ∉ (registerHandler run (some username) (some password) w).trace) ∧
      (∀ status token, (registerHandler run (some username) (some password) w).response ≠
        some { status := status, body := Body.token token }) ∧
      (3 ≤ (username.data.filter
            (fun c => decide (c.toNat ≠ 0xFE0E ∧ c.toNat ≠ 0xFE0F))).length →
        6 ≤ (password.data.filter
            (fun c => decide (c.toNat ≠ 0xFE0E ∧ c.toNat ≠ 0xFE0F))).length →
        run.find = Except.ok () →
        (registerHandler run (some username) (some password) w).response =
          some { status := 400, body := Body.msg "User already exists" }) ∧
      ((username.data.filter
            (fun c => decide (c.toNat ≠ 0xFE0E ∧ c.toNat ≠ 0xFE0F))).length < 3 ∨
        (password.data.filter
            (fun c => decide (c.toNat ≠ 0xFE0E ∧ c.toNat ≠ 0xFE0F))).length < 6 →
        ∃ errors, errors ≠ [] ∧
          (registerHandler run (some username) (some password) w).response =
            some { status := 400, body := Body.errors errors }) := by
  rw [← validatorLength_eq, ← validatorLength_eq]
  obtain ⟨d, hd, hname⟩ := hex
  have hfound : ∃ d', w.users.find? (fun d => d.username == username) = some d' := by
    cases hf : w.users.find? (fun d => d.username == username) with
    | some d' => exact ⟨d', rfl⟩
    | none =>
      have := List.find?_eq_none.mp hf d hd
      simp [hname] at this
  obtain ⟨d', hd'⟩ := hfound
  by_cases hu : validatorLength username < 3
  · have herr : registerErrors (some username) (some password) ≠ [] := by
      simp [registerErrors, hu]
    have hne : (registerErrors (some username) (some password)).isEmpty = false := by
      cases h : registerErrors (some username) (some password) with
      | nil => exact absurd h herr
      | cons a l => rfl
    unfold registerHandler
    simp only [hne, Bool.false_eq_true, if_false]
    refine ⟨trivial, by simp, by simp, fun h => absurd hu (Nat.not_lt.mpr h),
      fun _ => ⟨_, herr, rfl⟩⟩
  · by_cases hp : validatorLength password < 6
    · have herr : registerErrors (some username) (some password) ≠ [] := by
        simp [registerErrors, hp]
      have hne : (registerErrors (some username) (some password)).isEmpty = false := by
        cases h : registerErrors (some username) (some password) with
        | nil => exact absurd h herr
        | cons a l => rfl
      unfold registerHandler
      simp only [hne, Bool.false_eq_true, if_false]
      refine ⟨trivial, by simp, by simp, fun _ h => absurd hp (Nat.not_lt.mpr h),
        fun _ => ⟨_, herr, rfl⟩⟩
    · have herr : registerErrors (some username) (some password) = [] := by
        simp [registerErrors, hu, hp]
      unfold registerHandler
      simp only [herr, List.isEmpty_nil, if_true, Option.getD_some, hd']
      cases run.find with
      | error e =>
        refine ⟨rfl, by simp, by simp, by simp, ?_⟩
        rintro (h | h)
        · exact absurd h hu
        · exact absurd h hp
      | ok v =>
        refine ⟨rfl, by simp, by simp, by simp, ?_⟩
        rintro (h | h)
        · exact absurd h hu
        · exact absurd h hp

/-- Registering `alice` again with an acceptable password changes nothing and is answered
`User already exists`. -/
theorem register_existing_username_witness :
    (registerHandler demoAuthRun (some "alice") (some "another-password") demoWorld).world
        = demoWorld ∧
      (registerHandler demoAuthRun (some "alice") (some "another-password") demoWorld).response
        = some { status := 400, body := Body.msg "User already exists" } :=
  ⟨(register_existing_username demoAuthRun "alice" "another-password" demoWorld
      ⟨_, List.mem_singleton.mpr rfl, rfl⟩).1,
   (register_existing_username demoAuthRun "alice" "another-password" demoWorld
      ⟨_, List.mem_singleton.mpr rfl, rfl⟩).2.2.2.1 (by decide) (by decide) rfl⟩

/-- C16: the two failures of a login are not always answered alike.  With a working lookup, a
username that is not in the store is answered 400 `Invalid Credentials` whatever the password
field holds, and so is an existing username with a string password that `bcrypt.compare`
finds wrong; neither answer is a token.  But an existing username with a password that is not a
string (a number, say) is answered 500 `Server Error`, because `bcrypt.compare` rejects inside
the `try`: that answer differs from the one for the unknown username and tells that the
username exists. -/
theorem login_failure_answers (compare : String → String → Except String Bool)
    (run run' : AuthRun) (w : World) (username username' : String) (password' : BodyField)
    (d : UserDoc) (hok : run.find = Except.ok ()) (hok' : run'.find = Except.ok ())
    (hfind : w.users.find? (fun d => d.username == username) = some d)
    (habsent : ∀ d' ∈ w.users, d'.username ≠ username')
    (hpresent : password' ≠ BodyField.absent) :
    (loginHandler compare run' (some username') password' w).response =
        some { status := 400, body := Body.msg "Invalid Credentials" } ∧
      (∀ password, compare password d.password = Except.ok false →
        (loginHandler compare run (some username) (BodyField.text password) w).response =
          (loginHandler compare run' (some username') password' w).response ∧
        ∀ status token,
          (loginHandler compare run (some username) (BodyField.text password) w).response ≠
            some { status := status, body := Body.token token }) ∧
      (∀ typeName,
        (loginHandler compare run (some username) (BodyField.other typeName) w).response =
          some { status := 500, body := Body.text "Server Error" } ∧
        (loginHandler compare run (some username) (BodyField.other typeName) w).response ≠
          (loginHandler compare run' (some username') (BodyField.other typeName) w).response) := by
  have hnone : w.users.find? (fun d => d.username == username') = none := by
    rw [List.find?_eq_none]
    intro d' hd'
    simpa using habsent d' hd'
  have h2 : ∀ p, p ≠ BodyField.absent →
      (loginHandler compare run' (some username') p w).response =
        some { status := 400, body := Body.msg "Invalid Credentials" } := by
    intro p hp
    simp [loginHandler, loginErrors, hok', hnone, hp]
  refine ⟨h2 _ hpresent, ?_, ?_⟩
  · intro password hbad
    have h1 : (loginHandler compare run (some username) (BodyField.text password) w).response =
        some { status := 400, body := Body.msg "Invalid Credentials" } := by
      simp [loginHandler, loginErrors, hok, hfind, bcryptCompare, hbad]
    refine ⟨h1.trans (h2 _ hpresent).symm, ?_⟩
    intro status token; rw [h1]; simp
  · intro typeName
    have h1 : (loginHandler compare run (some username) (BodyField.other typeName) w).response =
        some { status := 500, body := Body.text "Server Error" } := by
      simp [loginHandler, loginErrors, hok, hfind, bcryptCompare]
    refine ⟨h1, ?_⟩
    rw [h1, h2 _ (by simp)]
    simp

/-- The answers to `alice` with the number `123` as password, to `alice` with a wrong string
password, and to the unknown `bob` with the number `123`. -/
theorem login_failure_answers_witness :
    (loginHandler demoCompare demoAuthRun (some "alice") (BodyField.other "number")
        demoWorld).response = some { status := 500, body := Body.text "Server Error" } ∧
    (loginHandler demoCompare demoAuthRun (some "alice") (BodyField.text "wrong-password")
        demoWorld).response =
      (loginHandler demoCompare demoAuthRun (some "bob") (BodyField.other "number")
        demoWorld).response ∧
    (loginHandler demoCompare demoAuthRun (some "bob") (BodyField.other "number")
        demoWorld).response = some { status := 400, body := Body.msg "Invalid Credentials" } :=
  ⟨((login_failure_answers demoCompare demoAuthRun demoAuthRun demoWorld "alice" "bob"
      (BodyField.other "number")
      { id := "id-1", username := "alice", password := "$2a$10$hash-of-secret1" }
      rfl rfl (by decide) (by decide) (by decide)).2.2 "number").1,
   ((login_failure_answers demoCompare demoAuthRun demoAuthRun demoWorld "alice" "bob"
      (BodyField.other "number")
      { id := "id-1", username := "alice", password := "$2a$10$hash-of-secret1" }
      rfl rfl (by decide) (by decide) (by decide)).2.1 "wrong-password" rfl).1,
   (login_failure_answers demoCompare demoAuthRun demoAuthRun demoWorld "alice" "bob"
      (BodyField.other "number")
      { id := "id-1", username := "alice", password := "$2a$10$hash-of-secret1" }
      rfl rfl (by decide) (by decide) (by decide)).1⟩

/-- A correct login of `alice` is answered with the signed token, so the handler does not
refuse every request. -/
theorem login_sample_success :
    (loginHandler demoCompare demoAuthRun (some "alice") (BodyField.text "secret1")
        demoWorld).response = some { status := 200, body := Body.token "signed-token" } := by
  decide

/-! ### The report and its persistence -/

/-- When every call of the run succeeds, the analyze handler appends the document and answers
200 with the report. -/
theorem analyzeHandler_ok (urlParses : String → Bool) (dev : Bool) (run : PageRun)
    (s : String) (options : Options) (u : TokenUser) (w : World) (axe : AxeResults)
    (title : String) (hvalid : ¬ (s = "" || !isValidUrl urlParses (normalizeUrl s)) = true)
    (hl : run.launch = Except.ok ()) (hn : run.newPage = Except.ok ())
    (hg : run.goto = Except.ok ()) (hw : run.waitForSelector = Except.ok ())
    (hi : run.addScriptTag = Except.ok ()) (he : run.evaluate = Except.ok axe)
    (ht : run.pageTitle = Except.ok title) (hs : run.save = Except.ok ()) :
    analyzeHandler urlParses dev run (some s) options (some u) w =
      { response := some
          { status := 200
            body := Body.report
              (mkReport run.pageUrl title run.axeVersion run.responseTime options u.id axe) }
        world := { w with results := w.results ++ [savedDoc run u.id options axe title] }
        trace := auditCalls s options ++
          [Event.save (savedDoc run u.id options axe title), Event.close] } := by
  unfold analyzeHandler
  simp only [if_neg hvalid, hl, hn, hg, hw, hi, he, ht, hs]

/-- An answer with status 200 is only given when every call of the run succeeded. -/
theorem analyzeHandler_ok_of_status (urlParses : String → Bool) (dev : Bool) (run : PageRun)
    (url : Option String) (options : Options) (user : Option TokenUser) (w : World)
    (body : Body)
    (h : (analyzeHandler urlParses dev run url options user w).response =
      some { status := 200, body := body }) :
    ∃ u s axe title, user = some u ∧ url = some s ∧
      ¬ (s = "" || !isValidUrl urlParses (normalizeUrl s)) = true ∧
      run.launch = Except.ok () ∧ run.newPage = Except.ok () ∧ run.goto = Except.ok () ∧
      run.waitForSelector = Except.ok () ∧ run.addScriptTag = Except.ok () ∧
      run.evaluate = Except.ok axe ∧ run.pageTitle = Except.ok title ∧
      run.save = Except.ok () := by
  unfold analyzeHandler at h
  cases user with
  | none => simp at h
  | some u =>
    cases url with
    | none => simp [invalidUrl] at h
    | some s =>
      simp only at h
      split at h
      · simp [invalidUrl] at h
      · rename_i hvalid
        repeat' split at h
        all_goals first
          | (simp [analyzeFail] at h; done)
          | exact ⟨u, s, _, _, rfl, rfl, hvalid, by assumption, by assumption, by assumption,
              by assumption, by assumption, by assumption, by assumption, by assumption⟩

/-- C17: when navigation and audit succeed and the save fails, the whole request fails: the
answer is 500 `Failed to analyze page` with only a message (the fixed text outside development
mode), it is not a report, and nothing is stored; the browser is closed after the failed
save. -/
theorem save_failure_fails_request (urlParses : String → Bool) (dev : Bool) (run : PageRun)
    (s : String) (options : Options) (u : TokenUser) (w : World) (axe : AxeResults)
    (title e : String) (hvalid : ¬ (s = "" || !isValidUrl urlParses (normalizeUrl s)) = true)
    (hl : run.launch = Except.ok ()) (hn : run.newPage = Except.ok ())
    (hg : run.goto = Except.ok ()) (hw : run.waitForSelector = Except.ok ())
    (hi : run.addScriptTag = Except.ok ()) (he : run.evaluate = Except.ok axe)
    (ht : run.pageTitle = Except.ok title) (hs : run.save = Except.error e) :
    (analyzeHandler urlParses dev run (some s) options (some u) w).response =
        some { status := 500
               body := Body.error "Failed to analyze page"
                 (some (errorMessage dev e "An error occurred during analysis.")) } ∧
      (∀ status report, (analyzeHandler urlParses dev run (some s) options (some u) w).response ≠
        some { status := status, body := Body.report report }) ∧
      (analyzeHandler urlParses dev run (some s) options (some u) w).world = w ∧
      (analyzeHandler urlParses dev run (some s) options (some u) w).trace =
        auditCalls s options ++
          [Event.save (savedDoc run u.id options axe title), Event.close] := by
  have hout : analyzeHandler urlParses dev run (some s) options (some u) w =
      analyzeFail dev w
        (auditCalls s options ++ [Event.save (savedDoc run u.id options axe title)]) true e := by
    unfold analyzeHandler
    simp only [if_neg hvalid, hl, hn, hg, hw, hi, he, ht, hs]
  rw [hout]
  refine ⟨rfl, ?_, rfl, ?_⟩
  · intro status report
    simp [analyzeFail]
  · simp [analyzeFail]

/-- A run in which everything succeeds but the save, outside development mode. -/
theorem save_failure_fails_request_witness :
    (analyzeHandler (fun _ => true) false
        { demoRun 1 with save := Except.error "E11000 duplicate key error" }
        (some "example.com") noOptions (some { id := "A" }) emptyWorld).response =
      some { status := 500
             body := Body.error "Failed to analyze page"
               (some "An error occurred during analysis.") } ∧
    (analyzeHandler (fun _ => true) false
        { demoRun 1 with save := Except.error "E11000 duplicate key error" }
        (some "example.com") noOptions (some { id := "A" }) emptyWorld).world = emptyWorld :=
  ⟨(save_failure_fails_request (fun _ => true) false
      { demoRun 1 with save := Except.error "E11000 duplicate key error" }
      "example.com" noOptions { id := "A" } emptyWorld (auditOfCounts 1 1 0 0)
      "Example Domain" "E11000 duplicate key error" (by decide) rfl rfl rfl rfl rfl rfl rfl
      rfl).1,
   (save_failure_fails_request (fun _ => true) false
      { demoRun 1 with save := Except.error "E11000 duplicate key error" }
      "example.com" noOptions { id := "A" } emptyWorld (auditOfCounts 1 1 0 0)
      "Example Domain" "E11000 duplicate key error" (by decide) rfl rfl rfl rfl rfl rfl rfl
      rfl).2.2.1⟩

/-- C18: the summary counts are the lengths of the four result lists, `totalChecks` is
violations plus passes plus incomplete, `passedChecks` and `totalPasses` are the passes,
`metadata.rulesRun` is `totalChecks`; replacing the inapplicable findings changes neither
`totalChecks` nor the score. -/
theorem summary_counts (pageUrl pageTitle axeVersion analysisTime : String)
    (options : Options) (userId : String) (r : AxeResults) (inapplicable : List Finding) :
    (summary r).totalChecks = r.violations.length + r.passes.length + r.incomplete.length ∧
      (summary r).passedChecks = r.passes.length ∧
      (summary r).totalPasses = r.passes.length ∧
      (summary r).totalViolations = r.violations.length ∧
      (summary r).totalIncomplete = r.incomplete.length ∧
      (summary r).totalInapplicable = r.inapplicable.length ∧
      (mkReport pageUrl pageTitle axeVersion analysisTime options userId r).summary =
        summary r ∧
      (mkReport pageUrl pageTitle axeVersion analysisTime options userId r).metadata.rulesRun =
        (summary r).totalChecks ∧
      totalChecks { r with inapplicable := inapplicable } = totalChecks r ∧
      score { r with inapplicable := inapplicable } = score r ∧
      (summary { r with inapplicable := inapplicable }).score = (summary r).score :=
  ⟨rfl, rfl, rfl, rfl, rfl, rfl, rfl, rfl, rfl, rfl, rfl⟩

/-- C19: the report of a request answered 200 is the one built from the audit of that run:
its summary score is its score, its violations are the raw violations in order, each with its
original fields and the three derived ones, so their number is `summary.totalViolations`; and
the one document appended to the store has the same url, score, summary, page info,
violations, passes, incomplete, inapplicable and owner. -/
theorem successful_report_consistent (urlParses : String → Bool) (dev : Bool) (run : PageRun)
    (url : Option String) (options : Options) (user : Option TokenUser) (w : World)
    (report : Report)
    (h : (analyzeHandler urlParses dev run url options user w).response =
      some { status := 200, body := Body.report report }) :
    ∃ (u : TokenUser) (axe : AxeResults) (doc : AnalysisDoc),
      user = some u ∧ run.evaluate = Except.ok axe ∧
      report.summary.score = report.score ∧
      report.violations.map (fun v => v.toFinding) = axe.violations ∧
      report.violations = axe.violations.map enhance ∧
      report.violations.length = report.summary.totalViolations ∧
      (analyzeHandler urlParses dev run url options user w).world.results =
        w.results ++ [doc] ∧
      doc.data.url = report.url ∧ doc.data.score = report.score ∧
      doc.data.summary = report.summary ∧ doc.data.pageInfo = report.pageInfo ∧
      doc.data.violations = report.violations ∧ doc.data.passes = report.passes ∧
      doc.data.incomplete = report.incomplete ∧
      doc.data.inapplicable = report.inapplicable ∧
      doc.data.userId = report.userId ∧ report.userId = u.id := by
  obtain ⟨u, s, axe, title, hu, hurl, hvalid, hl, hn, hg, hw, hi, he, ht, hs⟩ :=
    analyzeHandler_ok_of_status urlParses dev run url options user w _ h
  subst hu hurl
  have hout := analyzeHandler_ok urlParses dev run s options u w axe title hvalid hl hn hg hw
    hi he ht hs
  rw [hout] at h ⊢
  have hrep : report =
      mkReport run.pageUrl title run.axeVersion run.responseTime options u.id axe := by
    simp only [Option.some.injEq, Response.mk.injEq, Body.report.injEq, true_and] at h
    exact h.symm
  subst hrep
  refine ⟨u, axe, savedDoc run u.id options axe title, rfl, he, rfl, ?_, rfl, ?_, rfl, rfl, rfl,
    rfl, rfl, rfl, rfl, rfl, rfl, rfl, rfl⟩
  · simp [mkReport, enhance, List.map_map, Function.comp_def]
  · simp [mkReport, summary]

/-- The report answered to the second demo request and the document stored for it. -/
theorem successful_report_consistent_witness :
    ∃ (u : TokenUser) (axe : AxeResults) (doc : AnalysisDoc),
      some ({ id := "A" } : TokenUser) = some u ∧ (demoRun 20).evaluate = Except.ok axe ∧
      (mkReport "https://example.com/" "Example Domain" "4.10.0" "2025-01-01T00:00:00.000Z"
        noOptions "A" (auditOfCounts 1 1 0 0)).summary.score =
        (mkReport "https://example.com/" "Example Domain" "4.10.0" "2025-01-01T00:00:00.000Z"
          noOptions "A" (auditOfCounts 1 1 0 0)).score ∧
      (analyzeHandler (fun _ => true) false (demoRun 20) (some "example.com") noOptions
        (some { id := "A" }) emptyWorld).world.results = emptyWorld.results ++ [doc] ∧
      doc.data.userId = u.id :=
  let ⟨u, axe, doc, hu, he, hscore, _, _, _, hworld, _, _, _, _, _, _, _, _, hid, hid'⟩ :=
    successful_report_consistent (fun _ => true) false (demoRun 20) (some "example.com")
      noOptions (some { id := "A" }) emptyWorld
      (mkReport "https://example.com/" "Example Domain" "4.10.0" "2025-01-01T00:00:00.000Z"
        noOptions "A" (auditOfCounts 1 1 0 0)) (by decide)
  ⟨u, axe, doc, hu, he, hscore, hworld, hid.trans hid'⟩

/-! ### The client's code examples -/

/-- C20: `codeExample.before` is the html of the first node, and the empty string when there
is no node or the node has no html; `codeExample.after` is `before` followed by the comment
for every rule id that is neither a template id nor the name of a member of
`Object.prototype`.  For the rule id `toString`, which is not a template id, the lookup
`fixes[violation.id]` finds the inherited member and `after` is not `before` followed by the
comment. -/
theorem generateFixedCode_inherited_key :
    "toString" ∉ fixTemplateIds ∧
      (formatIssue { bareFinding "toString" with
          nodes := [{ html := some "<p>x</p>", target := [] }] }).codeExample =
        { before := "<p>x</p>", after := FixedCode.inheritedCall "toString" "<p>x</p>" } ∧
      (formatIssue { bareFinding "toString" with
          nodes := [{ html := some "<p>x</p>", target := [] }] }).codeExample.after ≠
        FixedCode.text ("<p>x</p>" ++ " <!-- Add appropriate accessibility attributes -->") ∧
      (∀ v : Finding, (formatIssue v).codeExample.before = firstHtml v.nodes) ∧
      firstHtml [] = "" ∧
      (∀ (target : List String) (rest : List Node),
        firstHtml ({ html := none, target := target } :: rest) = "") ∧
      (∀ (html : String) (target : List String) (rest : List Node),
        firstHtml ({ html := some html, target := target } :: rest) = html) ∧
      (∀ v : Finding, v.id ∉ fixTemplateIds → objectPrototypeKeys.contains v.id = false →
        (formatIssue v).codeExample.after =
          FixedCode.text ((formatIssue v).codeExample.before ++
            " <!-- Add appropriate accessibility attributes -->")) := by
  refine ⟨by decide, by decide, by decide, fun _ => rfl, rfl, fun _ _ => rfl,
    fun _ _ _ => rfl, ?_⟩
  intro v hid hproto
  simp only [fixTemplateIds, List.mem_cons, List.mem_singleton, not_or, List.mem_nil_iff,
    or_false] at hid
  obtain ⟨h1, h2, h3, h4⟩ := hid
  simp only [formatIssue, generateFixedCode, if_neg h1, if_neg h2, if_neg h3, if_neg h4, hproto,
    Bool.false_eq_true, if_false, ite_self, defaultFixComment]

/-! ### The presented report -/

/-- A positive integer below `2 ^ 53` is a double: rounding keeps its value. -/
theorem roundToDouble_nat (a : Nat) (ha : 0 < a) (hlt : a < 2 ^ 53) :
    ∃ S : Nat, roundToDouble a 1 = ⟨a * 2 ^ S, -(S : Int)⟩ := by
  have hlog : floorLog2 a < 53 := by
    rw [floorLog2_eq_log]
    exact Nat.log_lt_of_lt_pow (by omega) hlt
  have hpow : 2 ^ floorLog2 a ≤ a := by
    rw [floorLog2_eq_log]; exact Nat.pow_log_le_self 2 (by omega)
  have h1 : floorLog2 1 = 0 := by decide
  have hbin : binade a 1 = (floorLog2 a : Int) := by
    unfold binade
    simp only [h1, pow_zero, Nat.mul_one, Nat.one_mul, Nat.cast_zero, sub_zero]
    rw [if_pos hpow]
  have hmax : max (binade a 1) (-1022) = (floorLog2 a : Int) := by
    rw [hbin]; exact max_eq_left (by omega)
  have hs : (52 : Int) - (floorLog2 a : Int) = ((52 - floorLog2 a : Nat) : Int) := by omega
  refine ⟨52 - floorLog2 a, ?_⟩
  have hround : ∀ n : Nat, roundHalfEven n 1 = n := by
    intro n
    simp [roundHalfEven, Nat.mod_one]
  unfold roundToDouble
  rw [if_neg (by omega)]
  simp only [hmax, hs, Int.natCast_nonneg, if_true, Int.toNat_ofNat, hround]

/-- The function `Math.round` returns the integer a double stands for. -/
theorem mathRound_scaled (a S : Nat) : mathRound ⟨a * 2 ^ S, -(S : Int)⟩ = a := by
  unfold mathRound
  by_cases h0 : S = 0
  · subst h0; simp
  · have hneg : ¬ (0 : Int) ≤ -(S : Int) := by omega
    simp only [hneg, if_false, neg_neg, Int.toNat_ofNat]
    have h2 : 2 * (a * 2 ^ S) + 2 ^ S = (2 * a + 1) * 2 ^ S := by ring
    have h3 : 2 ^ (S + 1) = 2 * 2 ^ S := by ring
    rw [h2, h3, Nat.mul_div_mul_right _ _ (by positivity)]
    congr 1
    omega

/-- The client's score is one hundred times the score it received. -/
theorem clientScore_eq (score : Int) (h0 : 0 ≤ score) (h100 : score ≤ 100) :
    clientScore score = 100 * score := by
  obtain ⟨n, rfl⟩ := Int.eq_ofNat_of_zero_le h0
  have hn : n ≤ 100 := by exact_mod_cast h100
  unfold clientScore fmul
  simp only [Int.toNat_ofNat, le_refl, if_true, Int.toNat_zero, pow_zero, Nat.mul_one]
  by_cases hz : n = 0
  · subst hz; decide
  · obtain ⟨S, hS⟩ := roundToDouble_nat (n * 100) (by omega) (by omega)
    rw [hS, mathRound_scaled]
    push_cast
    ring

/-- C21: for the audit with 0 violations, 10 passes and 0 incomplete the server's score is
100 and `criticalIssues` is 0, but the presented score is `Math.round(100 * 100)`, that is
10000; for every score `s` from 0 to 100 the presented score is `100 * s`.  The count
`criticalIssues` is the number of violations with impact `critical`. -/
theorem presented_score_times_hundred :
    (mkReport "https://example.com/" "Example Domain" "4.10.0" "2025-01-01T00:00:00.000Z"
        noOptions "A" (auditOfCounts 0 10 0 0)).score = 100 ∧
      (formatResults "https://example.com" "2.5s"
        (mkReport "https://example.com/" "Example Domain" "4.10.0" "2025-01-01T00:00:00.000Z"
          noOptions "A" (auditOfCounts 0 10 0 0))).score = 10000 ∧
      (formatResults "https://example.com" "2.5s"
        (mkReport "https://example.com/" "Example Domain" "4.10.0" "2025-01-01T00:00:00.000Z"
          noOptions "A" (auditOfCounts 0 10 0 0))).criticalIssues = 0 ∧
      (∀ (websiteUrl scanTime : String) (report : Report),
        0 ≤ report.score → report.score ≤ 100 →
          (formatResults websiteUrl scanTime report).score = 100 * report.score) ∧
      (∀ (websiteUrl scanTime : String) (report : Report),
        (formatResults websiteUrl scanTime report).criticalIssues =
          (report.violations.filter (fun v => v.impact == some "critical")).length) := by
  refine ⟨by decide, by decide, by decide, ?_, ?_⟩
  · intro websiteUrl scanTime report h0 h100
    exact clientScore_eq report.score h0 h100
  · intro websiteUrl scanTime report
    simp only [formatResults, List.filter_map, List.length_map]
    rfl

/-! ### Timeouts, categories and levels, once more -/

/-- C22, the claim as stated fails: a request that supplies `waitTime: 2000` is navigated with
the timeout 30000, not 2000. -/
theorem goto_timeout_ignores_waitTime :
    clientOptions.waitTime = some 2000 ∧
      gotoTimeouts (analyzeHandler (fun _ => true) false (demoRun 1) (some "example.com")
        clientOptions (some { id := "A" }) emptyWorld).trace = [30000] := by
  decide

/-- C22, amended: every navigation of the analyze handler has the timeout 30000 and waits
for `networkidle2`, whatever `options.waitTime` is, and every DOM-ready wait is for `body`
with the timeout 15000. -/
theorem navigation_timeouts_fixed (urlParses : String → Bool) (dev : Bool) (run : PageRun)
    (url : Option String) (options : Options) (user : Option TokenUser) (w : World) :
    (∀ (x waitUntil : String) (timeout : Nat),
      Event.goto x waitUntil timeout ∈
          (analyzeHandler urlParses dev run url options user w).trace →
        timeout = 30000 ∧ waitUntil = "networkidle2") ∧
    (∀ (selector : String) (timeout : Nat),
      Event.waitForSelector selector timeout ∈
          (analyzeHandler urlParses dev run url options user w).trace →
        timeout = 15000 ∧ selector = "body") := by
  constructor
  · intro x waitUntil timeout h
    unfold analyzeHandler at h
    cases user with
    | none => simp at h
    | some a =>
      cases url with
      | none => simp [invalidUrl] at h
      | some s =>
        simp only at h
        split at h
        · simp [invalidUrl] at h
        · repeat' split at h
          all_goals simp [analyzeFail, auditCalls] at h
          all_goals exact ⟨h.2.2, h.2.1⟩
  · intro selector timeout h
    unfold analyzeHandler at h
    cases user with
    | none => simp at h
    | some a =>
      cases url with
      | none => simp [invalidUrl] at h
      | some s =>
        simp only at h
        split at h
        · simp [invalidUrl] at h
        · repeat' split at h
          all_goals simp [analyzeFail, auditCalls] at h
          all_goals exact ⟨h.2, h.1⟩

/-- C23: two violations with the same rule id and the same tags get the same category,
whatever their impact, nodes, description and help are. -/
theorem categorizeViolation_depends_on_id_and_tags (v v' : Finding) (hid : v.id = v'.id)
    (htags : v.tags = v'.tags) : categorizeViolation v = categorizeViolation v' := by
  unfold categorizeViolation
  simp only [hid, htags]

/-- A critical `image-alt` violation with a node and a bare one with the same id and tags. -/
theorem categorizeViolation_depends_on_id_and_tags_witness :
    categorizeViolation
        { bareFinding "image-alt" with
          impact := some "critical", description := "Images must have alternate text"
          nodes := [{ html := some "<img src=\"a.png\">", target := ["img"] }] } =
      categorizeViolation (bareFinding "image-alt") :=
  categorizeViolation_depends_on_id_and_tags _ _ rfl rfl

theorem digitsThenA_iff (rest : List Char) :
    digitsThenA rest = true ↔
      ∃ (ds : List Char) (x : Char) (post : List Char), rest = ds ++ x :: post ∧
        (∀ d ∈ ds, d.isDigit = true) ∧ (x = 'a' ∨ x = 'A') := by
  constructor
  · intro h
    induction rest with
    | nil => simp [digitsThenA] at h
    | cons c cs ih =>
      unfold digitsThenA at h
      by_cases hc : c.isDigit = true
      · rw [if_pos hc] at h
        obtain ⟨ds, x, post, hcs, hds, hx⟩ := ih h
        refine ⟨c :: ds, x, post, by simp [hcs], ?_, hx⟩
        intro d hd
        rcases List.mem_cons.mp hd with rfl | hd
        · exact hc
        · exact hds d hd
      · rw [if_neg hc] at h
        refine ⟨[], c, cs, rfl, by simp, ?_⟩
        simpa using h
  · rintro ⟨ds, x, post, rfl, hds, hx⟩
    induction ds with
    | nil =>
      have hnd : x.isDigit = false := by
        rcases hx with rfl | rfl <;> decide
      rcases hx with rfl | rfl <;> simp [digitsThenA, hnd]
    | cons d ds ih =>
      have hd : d.isDigit = true := hds d (List.mem_cons_self _ _)
      simp only [List.cons_append, digitsThenA, hd, if_true]
      exact ih (fun e he => hds e (List.mem_cons_of_mem _ he))

theorem wcagMatchesAt_iff (cs : List Char) :
    wcagMatchesAt cs = true ↔
      ∃ (w c a g : Char) (ds : List Char) (x : Char) (post : List Char),
        cs = w :: c :: a :: g :: (ds ++ x :: post) ∧
          (w = 'w' ∨ w = 'W') ∧ (c = 'c' ∨ c = 'C') ∧ (a = 'a' ∨ a = 'A') ∧
          (g = 'g' ∨ g = 'G') ∧ ds ≠ [] ∧ (∀ d ∈ ds, d.isDigit = true) ∧
          (x = 'a' ∨ x = 'A') := by
  constructor
  · intro h
    rcases cs with _ | ⟨w, _ | ⟨c, _ | ⟨a, _ | ⟨g, _ | ⟨d, rest⟩⟩⟩⟩⟩
    all_goals try (simp [wcagMatchesAt] at h; done)
    simp only [wcagMatchesAt, Bool.and_eq_true, Bool.or_eq_true, beq_iff_eq] at h
    obtain ⟨⟨⟨⟨⟨hw, hc⟩, ha⟩, hg⟩, hd⟩, hrest⟩ := h
    obtain ⟨ds, x, post, hcs, hds, hx⟩ := (digitsThenA_iff rest).mp hrest
    refine ⟨w, c, a, g, d :: ds, x, post, by simp [hcs], hw, hc, ha, hg, by simp, ?_, hx⟩
    intro e he
    rcases List.mem_cons.mp he with rfl | he
    · exact hd
    · exact hds e he
  · rintro ⟨w, c, a, g, ds, x, post, rfl, hw, hc, ha, hg, hne, hds, hx⟩
    cases ds with
    | nil => exact absurd rfl hne
    | cons d ds =>
      have hd : d.isDigit = true := hds d (List.mem_cons_self _ _)
      have hrest : digitsThenA (ds ++ x :: post) = true :=
        (digitsThenA_iff _).mpr ⟨ds, x, post, rfl,
          fun e he => hds e (List.mem_cons_of_mem _ he), hx⟩
      simp only [List.cons_append, wcagMatchesAt, Bool.and_eq_true, Bool.or_eq_true,
        beq_iff_eq]
      exact ⟨⟨⟨⟨⟨hw, hc⟩, ha⟩, hg⟩, hd⟩, hrest⟩

theorem wcagMatchesIn_iff (cs : List Char) :
    wcagMatchesIn cs = true ↔ IsWcagMatch cs := by
  constructor
  · intro h
    induction cs with
    | nil => simp [wcagMatchesIn] at h
    | cons c cs ih =>
      simp only [wcagMatchesIn, Bool.or_eq_true] at h
      rcases h with h | h
      · obtain ⟨w, c', a, g, ds, x, post, hcs, rest⟩ := (wcagMatchesAt_iff _).mp h
        exact ⟨[], w, c', a, g, ds, x, post, by simpa using hcs, rest⟩
      · obtain ⟨pre, w, c', a, g, ds, x, post, hcs, rest⟩ := ih h
        exact ⟨c :: pre, w, c', a, g, ds, x, post, by simp [hcs], rest⟩
  · rintro ⟨pre, w, c, a, g, ds, x, post, rfl, rest⟩
    induction pre with
    | nil =>
      simp only [List.nil_append, wcagMatchesIn, Bool.or_eq_true]
      left
      exact (wcagMatchesAt_iff _).mpr ⟨w, c, a, g, ds, x, post, rfl, rest⟩
    | cons p pre ih =>
      simp only [List.cons_append, wcagMatchesIn, Bool.or_eq_true]
      right
      exact ih


theorem matchesWcag_iff (t : String) : matchesWcag t = true ↔ IsWcagMatch t.data :=
  wcagMatchesIn_iff t.data

/-- A tag that matches the pattern has at least six characters, and so has its upper-cased
form, which therefore is not `N/A`. -/
theorem toUpperCase_ne_na (t : String) (h : IsWcagMatch t.data) : toUpperCase t ≠ "N/A" := by
  obtain ⟨pre, w, c, a, g, ds, x, post, hcs, _, _, _, _, hne, _, _⟩ := h
  intro heq
  have hlen : (toUpperCase t).data.length = ("N/A" : String).data.length := by rw [heq]
  have h3 : ("N/A" : String).data.length = 3 := by decide
  have hle := length_le_toUpperCase t
  cases ds with
  | nil => exact hne rfl
  | cons d ds =>
    simp only [hcs, List.length_append, List.length_cons, h3] at hlen hle
    omega

/-- The first matching tag of a list, given the tags before it do not match. -/
theorem find_first_match (pre : List String) (t : String) (rest : List String)
    (hpre : ∀ p ∈ pre, ¬ IsWcagMatch p.data) (ht : IsWcagMatch t.data) :
    (pre ++ t :: rest).find? matchesWcag = some t := by
  induction pre with
  | nil => simp [List.find?, (matchesWcag_iff t).mpr ht]
  | cons p pre ih =>
    have hp : matchesWcag p = false := by
      rw [Bool.eq_false_iff]
      exact fun h => hpre p (List.mem_cons_self _ _) ((matchesWcag_iff p).mp h)
    simp only [List.cons_append, List.find?, hp]
    exact ih (fun q hq => hpre q (List.mem_cons_of_mem _ hq))

/-- C24: `extractWcagLevel` returns `N/A` exactly when no tag contains `wcag`, digits and an
`a` (in either case); otherwise the first tag in list order that does decides alone, whatever
the tags after it: `A` if it contains `wcag2a` but not `wcag2aa`, `AA` if it contains
`wcag2aa` but not `wcag2aaa`, `AAA` if it contains `wcag2aaa`, and, when none of these three
holds, `AA (2.1)` if it contains `wcag21aa` and the tag in upper case in every remaining
case.  The upper case is spelled out: the characters of the result are the upper cases of the
code points of the tag, in order, and for a tag of ASCII characters they are the characters of
the tag with `a`–`z` (97–122) moved to `A`–`Z` and all others kept. -/
theorem extractWcagLevel_cases (tags : List String) :
    (extractWcagLevel tags = "N/A" ↔ ∀ t ∈ tags, ¬ IsWcagMatch t.data) ∧
    (∀ (pre : List String) (t : String) (rest : List String),
      tags = pre ++ t :: rest → (∀ p ∈ pre, ¬ IsWcagMatch p.data) → IsWcagMatch t.data →
        extractWcagLevel tags = extractWcagLevel [t] ∧
        (includes t "wcag2a" = true ∧ includes t "wcag2aa" = false →
          extractWcagLevel tags = "A") ∧
        (includes t "wcag2aa" = true ∧ includes t "wcag2aaa" = false →
          extractWcagLevel tags = "AA") ∧
        (includes t "wcag2aaa" = true → extractWcagLevel tags = "AAA") ∧
        (¬ (includes t "wcag2a" = true ∧ includes t "wcag2aa" = false) →
          ¬ (includes t "wcag2aa" = true ∧ includes t "wcag2aaa" = false) →
          ¬ includes t "wcag2aaa" = true →
            (includes t "wcag21aa" = true → extractWcagLevel tags = "AA (2.1)") ∧
            (includes t "wcag21aa" = false →
              extractWcagLevel tags = toUpperCase t ∧
              (extractWcagLevel tags).data =
                t.data.flatMap (fun c => (upperCodePoints c.toNat).map Char.ofNat) ∧
              ((∀ c ∈ t.data, c.toNat < 128) →
                (extractWcagLevel tags).data =
                  t.data.map (fun c =>
                    if 97 ≤ c.toNat ∧ c.toNat ≤ 122 then Char.ofNat (c.toNat - 32)
                    else c))))) := by
  constructor
  · constructor
    · intro h t ht hmatch
      cases hfind : tags.find? matchesWcag with
      | none =>
        have := List.find?_eq_none.mp hfind t ht
        exact this ((matchesWcag_iff t).mpr hmatch)
      | some u =>
        have hu : IsWcagMatch u.data := (matchesWcag_iff u).mp (List.find?_some hfind)
        have hne := toUpperCase_ne_na u hu
        unfold extractWcagLevel at h
        rw [hfind] at h
        simp only at h
        split_ifs at h
        · exact absurd h (by decide)
        · exact absurd h (by decide)
        · exact absurd h (by decide)
        · exact absurd h (by decide)
        · exact hne h
    · intro h
      have hfind : tags.find? matchesWcag = none := by
        rw [List.find?_eq_none]
        intro t ht hm
        exact h t ht ((matchesWcag_iff t).mp (by simpa using hm))
      simp [extractWcagLevel, hfind]
  · intro pre t rest htags hpre ht
    have hfind : tags.find? matchesWcag = some t := by
      rw [htags]; exact find_first_match pre t rest hpre ht
    have hone : [t].find? matchesWcag = some t := by
      simp [List.find?, (matchesWcag_iff t).mpr ht]
    refine ⟨?_, ?_, ?_, ?_, ?_⟩
    · simp only [extractWcagLevel, hfind, hone]
    · rintro ⟨h1, h2⟩
      simp [extractWcagLevel, hfind, h1, h2]
    · rintro ⟨h1, h2⟩
      have h0 := includes_wcag2a_of_wcag2aa t h1
      simp [extractWcagLevel, hfind, h0, h1, h2]
    · intro h3
      have h2 := includes_wcag2aa_of_wcag2aaa t h3
      have h0 := includes_wcag2a_of_wcag2aa t h2
      simp [extractWcagLevel, hfind, h0, h2, h3]
    · intro n1 n2 n3
      have e3 : includes t "wcag2aaa" = false := by simpa using n3
      have e2 : includes t "wcag2aa" = false := by
        cases h : includes t "wcag2aa" with
        | false => rfl
        | true => exact absurd ⟨h, e3⟩ n2
      have e1 : includes t "wcag2a" = false := by
        cases h : includes t "wcag2a" with
        | false => rfl
        | true => exact absurd ⟨h, e2⟩ n1
      constructor
      · intro h21
        simp [extractWcagLevel, hfind, e1, e2, e3, h21]
      · intro h21
        have h : extractWcagLevel tags = toUpperCase t := by
          simp [extractWcagLevel, hfind, e1, e2, e3, h21]
        exact ⟨h, by rw [h]; rfl, fun hascii => by rw [h]; exact upperChars_ascii t.data hascii⟩

/-- In `cat.color, wcag21aa, wcag2a` the tag `wcag21aa` is the first that matches, and the
level is `AA (2.1)`, whatever follows; in `best-practice, wcag3aß, wcag2a` the first that
matches is `wcag3aß`, which falls through to the last case, and the level is `WCAG3ASS`. -/
theorem extractWcagLevel_cases_witness :
    extractWcagLevel ["cat.color", "wcag21aa", "wcag2a"] = extractWcagLevel ["wcag21aa"] ∧
      extractWcagLevel ["cat.color", "wcag21aa", "wcag2a"] = "AA (2.1)" ∧
      extractWcagLevel ["best-practice", "wcag3aß", "wcag2a"] = "WCAG3ASS" :=
  have h := (extractWcagLevel_cases ["cat.color", "wcag21aa", "wcag2a"]).2
    ["cat.color"] "wcag21aa" ["wcag2a"] rfl
    (fun p hp => by
      rw [List.mem_singleton.mp hp]
      exact fun hm => absurd ((matchesWcag_iff _).mpr hm) (by decide))
    ((matchesWcag_iff _).mp (by decide))
  have h' := (extractWcagLevel_cases ["best-practice", "wcag3aß", "wcag2a"]).2
    ["best-practice"] "wcag3aß" ["wcag2a"] rfl
    (fun p hp => by
      rw [List.mem_singleton.mp hp]
      exact fun hm => absurd ((matchesWcag_iff _).mpr hm) (by decide))
    ((matchesWcag_iff _).mp (by decide))
  ⟨h.1, (h.2.2.2.2 (by decide) (by decide) (by decide)).1 (by decide),
   ((h'.2.2.2.2 (by decide) (by decide) (by decide)).2 (by decide)).1.trans (by decide)⟩

/-! ### When the score is 100 -/

/-- The score of an audit given by its counts. -/
theorem score_auditOfCounts (v p i n : Nat) :
    score (auditOfCounts v p i n) =
      if v + p + i > 0 then mathRound (fmul (fdiv p (v + p + i)) 100) else 0 := by
  simp [score, totalChecks, passedChecks, auditOfCounts]

theorem score_199_of_200 : score (auditOfCounts 1 199 0 0) = 100 := by
  rw [score_auditOfCounts]
  decide

/-- The exponent of a rounded fraction below `2 ^ (k + 1)` is at most `k - 52`. -/
theorem roundToDouble_exp_le (a b k : Nat) (ha : 0 < a) (hlt : a < 2 ^ (k + 1) * b) :
    (roundToDouble a b).e ≤ (k : Int) - 52 := by
  have hbin := binade_le a b k ha hlt
  have hmax : max (binade a b) (-1022) ≤ (k : Int) := max_le hbin (by omega)
  unfold roundToDouble
  rw [if_neg (by omega)]
  simp only
  split_ifs <;> simp only <;> omega

/-- A power of two with exponent at most `-k` is at most `1 / 2 ^ k`. -/
theorem zpow_le_inv_pow (e : Int) (k : Nat) (h : e ≤ -(k : Int)) :
    (2 : ℚ) ^ e ≤ 1 / 2 ^ k := by
  have h1 : (2 : ℚ) ^ e ≤ (2 : ℚ) ^ (-(k : Int)) := zpow_le_zpow_right₀ (by norm_num) h
  rw [zpow_neg, zpow_natCast] at h1
  simpa using h1

/-- Below 99.5 percent the score stays below 100, for counts below `2 ^ 32`: the two rounding
errors together are far smaller than the distance `1 / (2 * t)` of the exact percentage from
99.5. -/
theorem score_lt_hundred (p t : Nat) (ht : 0 < t) (ht32 : t < 2 ^ 32)
    (h : 200 * p < 199 * t) : mathRound (fmul (fdiv p t) 100) ≤ 99 := by
  by_cases hp : p = 0
  · subst hp
    simp [fdiv, roundToDouble, fmul, mathRound]
  have hp0 : 0 < p := Nat.pos_of_ne_zero hp
  have hpt : p ≤ t := by omega
  obtain ⟨S, hS, hm⟩ := fdiv_le_one p t ht hpt
  have hye : (fdiv p t).e ≤ ((0 : Nat) : Int) - 52 :=
    roundToDouble_exp_le p t 0 hp0 (by omega)
  have hS52 : 52 ≤ S := by
    rw [hS] at hye
    omega
  have hneg : ¬ (0 : Int) ≤ (fdiv p t).e := by rw [hS]; omega
  have hfmul : fmul (fdiv p t) 100 = roundToDouble ((fdiv p t).m * 100) (2 ^ S) := by
    unfold fmul
    rw [if_neg hneg, hS]
    simp
  by_cases hm0 : (fdiv p t).m = 0
  · rw [hfmul, hm0]
    simp [roundToDouble, mathRound]
  have hmpos : 0 < (fdiv p t).m := Nat.pos_of_ne_zero hm0
  have p2 : (0 : Nat) < 2 ^ S := by positivity
  -- the quotient
  have hny := roundToDouble_nearest p t ht
  have hye' : (2 : ℚ) ^ (roundToDouble p t).e ≤ 1 / 2 ^ 52 :=
    zpow_le_inv_pow _ 52 (by have := hye; unfold fdiv at this; omega)
  have hytoRat : (fdiv p t).toRat = ((fdiv p t).m : ℚ) / 2 ^ S := by
    unfold Double.toRat
    rw [hS, zpow_neg, zpow_natCast, div_eq_mul_inv]
  -- the product
  have hze : (roundToDouble ((fdiv p t).m * 100) (2 ^ S)).e ≤ ((6 : Nat) : Int) - 52 :=
    roundToDouble_exp_le _ _ 6 (by omega) (by norm_num; nlinarith)
  have hnz := roundToDouble_nearest ((fdiv p t).m * 100) (2 ^ S) p2
  have hze' : (2 : ℚ) ^ (roundToDouble ((fdiv p t).m * 100) (2 ^ S)).e ≤ 1 / 2 ^ 46 :=
    zpow_le_inv_pow _ 46 (by omega)
  have hexact : (((fdiv p t).m * 100 : Nat) : ℚ) / ((2 ^ S : Nat) : ℚ) =
      100 * (fdiv p t).toRat := by
    rw [hytoRat]
    push_cast
    ring
  rw [hexact] at hnz
  -- the exact percentage
  have qt : (0 : ℚ) < t := by exact_mod_cast ht
  have hq : (200 : ℚ) * p + 1 ≤ 199 * t := by exact_mod_cast h
  have ht32q : (t : ℚ) < 2 ^ 32 := by exact_mod_cast ht32
  have hinv : (1 : ℚ) / 2 ^ 32 < 1 / t := one_div_lt_one_div_of_lt qt ht32q
  have hx : (p : ℚ) / t ≤ 199 / 200 - (1 / t) / 200 := by
    have hmul := mul_le_mul_of_nonneg_right hq (le_of_lt (one_div_pos.mpr qt))
    have h1 : (199 : ℚ) * t * (1 / t) = 199 := by field_simp
    have h2 : (p : ℚ) / t = p * (1 / t) := div_eq_mul_one_div _ _
    rw [h1] at hmul
    rw [h2]
    linarith
  have hy1 := (abs_le.mp (by linarith : |(roundToDouble p t).toRat - (p : ℚ) / t| ≤ 1 / 2 ^ 53)).2
  have hz1 := (abs_le.mp (by linarith :
    |(roundToDouble ((fdiv p t).m * 100) (2 ^ S)).toRat - 100 * (fdiv p t).toRat| ≤
      1 / 2 ^ 47)).2
  have hy1' : (fdiv p t).toRat ≤ (p : ℚ) / t + 1 / 2 ^ 53 := by
    unfold fdiv; linarith
  have hzlt : (roundToDouble ((fdiv p t).m * 100) (2 ^ S)).toRat + 1 / 2 < 100 := by
    norm_num at hinv hy1' hz1 hx ⊢
    linarith
  rw [hfmul, mathRound_eq_floor]
  have : ⌊(roundToDouble ((fdiv p t).m * 100) (2 ^ S)).toRat + 1 / 2⌋ < 100 :=
    Int.floor_lt.mpr (by exact_mod_cast hzlt)
  omega

/-- C25, the claim as stated fails: 199 passes and one violation score 100, as the exact
percentage 99.5 is rounded up. -/
theorem score_hundred_with_violation :
    score (auditOfCounts 1 199 0 0) = 100 ∧
      (auditOfCounts 1 199 0 0).violations.length = 1 ∧
      (auditOfCounts 1 199 0 0).passes.length = 199 ∧
      (auditOfCounts 1 199 0 0).incomplete.length = 0 := by
  refine ⟨?_, ?_, ?_, ?_⟩
  · rw [score_auditOfCounts]
    decide
  · simp only [auditOfCounts, List.length_replicate]
  · simp only [auditOfCounts, List.length_replicate]
  · simp only [auditOfCounts, List.length_replicate]

/-- C25, amended: for result lists of fewer than `2 ^ 32` findings, the score is 100 only if
at least 99.5 percent of the checks passed: there is at least one pass, and the violations
and incomplete findings together are at most one 199th of the passes. -/
theorem score_hundred_only_if (r : AxeResults) (hlen : totalChecks r < 2 ^ 32)
    (h : score r = 100) :
    1 ≤ r.passes.length ∧
      199 * (r.violations.length + r.incomplete.length) ≤ r.passes.length := by
  unfold score at h
  by_cases ht : totalChecks r > 0
  · rw [if_pos ht] at h
    have hge : 199 * totalChecks r ≤ 200 * passedChecks r := by
      by_contra hlt
      have := score_lt_hundred (passedChecks r) (totalChecks r) ht hlen (by omega)
      omega
    unfold totalChecks passedChecks at hge
    unfold totalChecks at ht
    constructor <;> omega
  · rw [if_neg ht] at h
    omega

/-- The amended claim at the audit with 199 passes and one violation. -/
theorem score_hundred_only_if_witness :
    1 ≤ (auditOfCounts 1 199 0 0).passes.length ∧
      199 * ((auditOfCounts 1 199 0 0).violations.length +
        (auditOfCounts 1 199 0 0).incomplete.length) ≤
        (auditOfCounts 1 199 0 0).passes.length :=
  score_hundred_only_if (auditOfCounts 1 199 0 0)
    (by simp only [totalChecks, auditOfCounts, List.length_replicate]; norm_num)
    score_199_of_200

/-! ### URL normalisation on both sides -/

theorem startsWith_append_left (p u : String) : startsWith (p ++ u) p = true := by
  unfold startsWith
  rw [List.isPrefixOf_iff_prefix, String.data_append]
  exact List.prefix_append _ _

theorem startsWith_of_startsWith_append (u : String) (p q : List Char)
    (h : startsWith u (String.mk (p ++ q)) = true) : startsWith u (String.mk p) = true := by
  unfold startsWith at h ⊢
  rw [List.isPrefixOf_iff_prefix] at h ⊢
  exact (List.prefix_append p q).trans h

/-- C26: `normalizeUrl` is idempotent, and its result starts with `http://` or
`https://`. -/
theorem normalizeUrl_idempotent (u : String) :
    normalizeUrl (normalizeUrl u) = normalizeUrl u ∧
      ("http://".data <+: (normalizeUrl u).data ∨ "https://".data <+: (normalizeUrl u).data) := by
  have hp : ∀ v p : String, startsWith v p = true ↔ p.data <+: v.data := by
    intro v p
    unfold startsWith
    exact List.isPrefixOf_iff_prefix
  by_cases h1 : startsWith u "http://" = true
  · have hn : normalizeUrl u = u := by simp [normalizeUrl, h1]
    rw [hn]
    exact ⟨hn, Or.inl ((hp u _).mp h1)⟩
  · by_cases h2 : startsWith u "https://" = true
    · have hn : normalizeUrl u = u := by simp [normalizeUrl, h2]
      rw [hn]
      exact ⟨hn, Or.inr ((hp u _).mp h2)⟩
    · have hn : normalizeUrl u = "https://" ++ u := by
        simp [normalizeUrl, h1, h2]
      have hs : startsWith ("https://" ++ u) "https://" = true := startsWith_append_left _ _
      rw [hn]
      refine ⟨?_, Or.inr ((hp _ _).mp hs)⟩
      simp [normalizeUrl, hs]

/-- C27: for `httpfoo.com` the client's pre-check hands `httpfoo.com` itself to the URL
parser, because it starts with `http`, while the server's `normalizeUrl` gives
`https://httpfoo.com`; with a parser that rejects the first and accepts the second, the client
rejects a url the server accepts.  The two strings agree whenever the url starts with
`http://` or `https://` or does not start with `http`. -/
theorem client_precheck_differs :
    clientCandidate "httpfoo.com" = "httpfoo.com" ∧
      normalizeUrl "httpfoo.com" = "https://httpfoo.com" ∧
      clientCandidate "httpfoo.com" ≠ normalizeUrl "httpfoo.com" ∧
      (∀ urlParses : String → Bool,
        urlParses "httpfoo.com" = false → urlParses "https://httpfoo.com" = true →
          clientRejects urlParses "httpfoo.com" = true ∧
            serverRejects urlParses "httpfoo.com" = false) ∧
      (∀ url : String,
        startsWith url "http://" = true ∨ startsWith url "https://" = true ∨
            startsWith url "http" = false →
          clientCandidate url = normalizeUrl url) := by
  have hc : clientCandidate "httpfoo.com" = "httpfoo.com" := by decide
  have hn : normalizeUrl "httpfoo.com" = "https://httpfoo.com" := by decide
  refine ⟨hc, hn, by decide, ?_, ?_⟩
  · intro urlParses hbad hgood
    simp [clientRejects, serverRejects, isValidUrl, hc, hn, hbad, hgood]
  · intro url h
    have hhttp1 : startsWith url "http://" = true → startsWith url "http" = true :=
      startsWith_of_startsWith_append url "http".data "://".data
    have hhttp2 : startsWith url "https://" = true → startsWith url "http" = true :=
      startsWith_of_startsWith_append url "http".data "s://".data
    rcases h with h | h | h
    · simp [clientCandidate, normalizeUrl, h, hhttp1 h]
    · simp [clientCandidate, normalizeUrl, h, hhttp2 h]
    · have e1 : startsWith url "http://" = false := by
        cases hs : startsWith url "http://" with
        | false => rfl
        | true => rw [hhttp1 hs] at h; exact absurd h (by decide)
      have e2 : startsWith url "https://" = false := by
        cases hs : startsWith url "https://" with
        | false => rfl
        | true => rw [hhttp2 hs] at h; exact absurd h (by decide)
      simp [clientCandidate, normalizeUrl, h, e1, e2]

/-! ### The fix templates -/

theorem replaceFirstChars_first (s pat rep pre post : List Char)
    (h : FirstOccurrence s pat pre post) :
    replaceFirstChars s pat rep = pre ++ rep ++ post := by
  induction s generalizing pre with
  | nil =>
    obtain ⟨hs, _⟩ := h
    have hpre : pre = [] := by
      cases pre with
      | nil => rfl
      | cons a l => simp at hs
    subst hpre
    have hpat : pat = [] := by
      cases pat with
      | nil => rfl
      | cons a l => simp at hs
    subst hpat
    have hpost : post = [] := by simpa using hs.symm
    subst hpost
    simp [replaceFirstChars]
  | cons c cs ih =>
    obtain ⟨hs, hmin⟩ := h
    unfold replaceFirstChars
    by_cases hpfx : pat.isPrefixOf (c :: cs) = true
    · rw [if_pos hpfx]
      obtain ⟨t, ht⟩ := List.isPrefixOf_iff_prefix.mp hpfx
      have hlen := hmin [] t (by simpa using ht.symm)
      have hpre : pre = [] := List.length_eq_zero.mp (by simpa using hlen)
      subst hpre
      have hpost : post = t := by
        have : pat ++ post = pat ++ t := by
          rw [ht]; simpa using hs.symm
        exact List.append_cancel_left this
      rw [← ht, hpost]
      simp
    · rw [if_neg hpfx]
      cases pre with
      | nil =>
        exfalso
        apply hpfx
        rw [List.isPrefixOf_iff_prefix]
        exact ⟨post, by simpa using hs.symm⟩
      | cons a pre1 =>
        have hc : c = a ∧ cs = pre1 ++ pat ++ post := by
          simpa using hs
        obtain ⟨rfl, hcs⟩ := hc
        have hrec : FirstOccurrence cs pat pre1 post := by
          refine ⟨hcs, ?_⟩
          intro pre' post' h'
          have := hmin (c :: pre') post' (by simp [h'])
          simpa using this
        rw [ih pre1 hrec]
        simp

theorem replaceFirstChars_absent (s pat rep : List Char) (h : includesChars s pat = false) :
    replaceFirstChars s pat rep = s := by
  induction s with
  | nil =>
    simp only [includesChars] at h
    simp [replaceFirstChars, h]
  | cons c cs ih =>
    simp only [includesChars, Bool.or_eq_false_iff] at h
    unfold replaceFirstChars
    rw [if_neg (by simp [h.1]), ih h.2]

theorem generateFixedCode_of_template (v : Finding) (id pat rep : String)
    (hmem : (id, pat, rep) ∈ fixTemplates) (hid : v.id = id) :
    generateFixedCode v = FixedCode.text (replaceFirst (firstHtml v.nodes) pat rep) := by
  simp only [fixTemplates, List.mem_cons, Prod.mk.injEq, List.mem_singleton, List.mem_nil_iff,
    or_false] at hmem
  rcases hmem with ⟨rfl, rfl, rfl⟩ | ⟨rfl, rfl, rfl⟩ | ⟨rfl, rfl, rfl⟩ | ⟨rfl, rfl, rfl⟩ <;>
    simp [generateFixedCode, hid]

/-- C28: for each keyed template (`color-contrast`, `image-alt`, `label`, `heading-order`) and
every violation with that rule id, the fixed code is the html of the first node with the first
occurrence of the template's search pattern replaced by its replacement, what stands before
and after that occurrence being kept; and it is the html unchanged when the pattern does not
occur in it. -/
theorem generateFixedCode_replaces_first (v : Finding) (id pat rep : String)
    (hmem : (id, pat, rep) ∈ fixTemplates) (hid : v.id = id) :
    (∀ pre post : List Char, FirstOccurrence (firstHtml v.nodes).data pat.data pre post →
      generateFixedCode v = FixedCode.text (String.mk (pre ++ rep.data ++ post))) ∧
    (includes (firstHtml v.nodes) pat = false →
      generateFixedCode v = FixedCode.text (firstHtml v.nodes)) := by
  rw [generateFixedCode_of_template v id pat rep hmem hid]
  constructor
  · intro pre post h
    unfold replaceFirst
    rw [replaceFirstChars_first _ _ _ pre post h]
  · intro h
    unfold replaceFirst
    unfold includes at h
    rw [replaceFirstChars_absent _ _ _ h]

/-- In the snippet with two images the first occurrence of the pattern follows `<p>`. -/
theorem first_img_occurrence :
    FirstOccurrence "<p><img src=a><img src=b></p>".data "<img src=".data "<p>".data
      "a><img src=b></p>".data := by
  refine ⟨by decide, ?_⟩
  intro pre' post' h
  by_contra hlt
  rcases pre' with _ | ⟨a, _ | ⟨b, _ | ⟨c, rest⟩⟩⟩
  · have := congrArg (fun l => (l.drop 1).head?) h
    revert this; simp
  · have := congrArg (fun l => (l.drop 1).head?) h
    revert this; simp
  · have := congrArg (fun l => (l.drop 2).head?) h
    revert this; simp
  · simp at hlt

/-- An `image-alt` violation on a snippet with two images: only the first tag is changed; and
a snippet without an image is kept. -/
theorem generateFixedCode_replaces_first_witness :
    generateFixedCode
        { bareFinding "image-alt" with
          nodes := [{ html := some "<p><img src=a><img src=b></p>", target := [] }] } =
      FixedCode.text "<p><img alt=\"Descriptive text\" src=a><img src=b></p>" ∧
    generateFixedCode
        { bareFinding "image-alt" with
          nodes := [{ html := some "<p>no image</p>", target := [] }] } =
      FixedCode.text "<p>no image</p>" :=
  ⟨(generateFixedCode_replaces_first
      { bareFinding "image-alt" with
        nodes := [{ html := some "<p><img src=a><img src=b></p>", target := [] }] }
      "image-alt" "<img src=" "<img alt=\"Descriptive text\" src=" (by decide) rfl).1
      "<p>".data "a><img src=b></p>".data first_img_occurrence,
   (generateFixedCode_replaces_first
      { bareFinding "image-alt" with
        nodes := [{ html := some "<p>no image</p>", target := [] }] }
      "image-alt" "<img src=" "<img alt=\"Descriptive text\" src=" (by decide) rfl).2
      (by decide)⟩

/-! ### The client's categories and issue filter -/

theorem addViolation_issues (c : Categories) (v : Finding) (b : Bucket) :
    ((addViolation c v).get b).issues =
      (c.get b).issues + if bucketOf v = b then 1 else 0 := by
  cases b <;> cases h : bucketOf v <;> simp [addViolation, h, Categories.get, bump]

theorem foldl_addViolation_issues (violations : List Finding) (c : Categories) (b : Bucket) :
    ((violations.foldl addViolation c).get b).issues =
      (c.get b).issues + (violations.filter (fun v => bucketOf v = b)).length := by
  induction violations generalizing c with
  | nil => simp
  | cons v vs ih =>
    rw [List.foldl_cons, ih, addViolation_issues]
    by_cases h : bucketOf v = b
    · simp [List.filter_cons, h]; omega
    · simp [List.filter_cons, h]

theorem generateCategories_get (violations : List Finding) (b : Bucket) :
    (generateCategoriesFromViolations violations).get b =
      finishCategory ((violations.foldl addViolation initialCategories).get b) := by
  cases b <;> rfl

theorem finishCategory_status (c : Category) :
    ((finishCategory c).status = "success" ↔ c.issues = 0) ∧
      ((finishCategory c).status = "warning" ↔ c.issues = 1) ∧
      ((finishCategory c).status = "error" ↔ 2 ≤ c.issues) := by
  have hsw : ("success" : String) ≠ "warning" := by decide
  have hse : ("success" : String) ≠ "error" := by decide
  have hwe : ("warning" : String) ≠ "error" := by decide
  unfold finishCategory
  simp only
  rcases Nat.lt_or_ge c.issues 1 with h0 | h1
  · have hz : c.issues = 0 := by omega
    have h90 : max (0 : Int) (100 - (c.issues : Int) * 20) ≥ 90 := by
      rw [hz]; decide
    rw [if_pos h90]
    refine ⟨⟨fun _ => hz, fun _ => rfl⟩, ⟨fun h => absurd h hsw, fun h => by omega⟩,
      ⟨fun h => absurd h hse, fun h => by omega⟩⟩
  · rcases Nat.lt_or_ge c.issues 2 with h | h2
    · have hone : c.issues = 1 := by omega
      have h90 : ¬ max (0 : Int) (100 - (c.issues : Int) * 20) ≥ 90 := by
        rw [hone]; decide
      have h70 : max (0 : Int) (100 - (c.issues : Int) * 20) ≥ 70 := by
        rw [hone]; decide
      rw [if_neg h90, if_pos h70]
      refine ⟨⟨fun h => absurd h.symm hsw, fun h => by omega⟩, ⟨fun _ => hone, fun _ => rfl⟩,
        ⟨fun h => absurd h hwe, fun h => by omega⟩⟩
    · have hle : max (0 : Int) (100 - (c.issues : Int) * 20) ≤ 60 := by
        apply max_le <;> omega
      rw [if_neg (by omega), if_neg (by omega)]
      refine ⟨⟨fun h => absurd h.symm hse, fun h => by omega⟩,
        ⟨fun h => absurd h.symm hwe, fun h => by omega⟩, ⟨fun _ => h2, fun _ => rfl⟩⟩

/-- C29: `generateCategoriesFromViolations` counts every violation in one bucket, the one its
rule id selects, so the five counts add up to the number of violations; the score of a bucket
is `max(0, 100 - 20 * issues)`, and its status is `success` exactly for no issue, `warning`
exactly for one, `error` exactly for two or more. -/
theorem categories_count (violations : List Finding) :
    (∀ b : Bucket, ((generateCategoriesFromViolations violations).get b).issues =
      (violations.filter (fun v => bucketOf v = b)).length) ∧
    (generateCategoriesFromViolations violations).colorContrast.issues +
        (generateCategoriesFromViolations violations).images.issues +
        (generateCategoriesFromViolations violations).forms.issues +
        (generateCategoriesFromViolations violations).navigation.issues +
        (generateCategoriesFromViolations violations).pageStructure.issues =
      violations.length ∧
    (∀ b : Bucket, ((generateCategoriesFromViolations violations).get b).score =
      max 0 (100 - 20 * (((generateCategoriesFromViolations violations).get b).issues : Int))) ∧
    (∀ b : Bucket,
      (((generateCategoriesFromViolations violations).get b).status = "success" ↔
        ((generateCategoriesFromViolations violations).get b).issues = 0) ∧
      (((generateCategoriesFromViolations violations).get b).status = "warning" ↔
        ((generateCategoriesFromViolations violations).get b).issues = 1) ∧
      (((generateCategoriesFromViolations violations).get b).status = "error" ↔
        2 ≤ ((generateCategoriesFromViolations violations).get b).issues)) := by
  have hcount : ∀ b : Bucket, ((generateCategoriesFromViolations violations).get b).issues =
      (violations.filter (fun v => bucketOf v = b)).length := by
    intro b
    rw [generateCategories_get]
    have := foldl_addViolation_issues violations initialCategories b
    have h0 : (initialCategories.get b).issues = 0 := by cases b <;> rfl
    rw [h0, Nat.zero_add] at this
    exact this
  refine ⟨hcount, ?_, ?_, ?_⟩
  · have h1 := hcount Bucket.colorContrast
    have h2 := hcount Bucket.images
    have h3 := hcount Bucket.forms
    have h4 := hcount Bucket.navigation
    have h5 := hcount Bucket.pageStructure
    simp only [Categories.get] at h1 h2 h3 h4 h5
    rw [h1, h2, h3, h4, h5]
    clear h1 h2 h3 h4 h5 hcount
    induction violations with
    | nil => simp
    | cons v vs ih =>
      simp only [List.filter_cons, List.length_cons]
      cases h : bucketOf v <;> simp <;> omega
  · intro b
    rw [generateCategories_get]
    simp only [finishCategory]
    ring_nf
  · intro b
    rw [generateCategories_get]
    have hfin : (finishCategory ((violations.foldl addViolation initialCategories).get b)).issues
        = ((violations.foldl addViolation initialCategories).get b).issues := rfl
    rw [hfin]
    exact finishCategory_status _

theorem formatIssue_type (v : Finding) :
    (formatIssue v).type = (if v.impact = some "critical" then "critical" else "warning") ∧
      (formatIssue v).impact = v.impact :=
  ⟨rfl, rfl⟩

theorem issue_type_cases (websiteUrl scanTime : String) (report : Report) (i : Issue)
    (hi : i ∈ (formatResults websiteUrl scanTime report).issues) :
    (i.type = "critical" ∧ i.impact = some "critical") ∨
      (i.type = "warning" ∧ i.impact ≠ some "critical") := by
  simp only [formatResults, List.mem_map] at hi
  obtain ⟨v, ⟨e, _, rfl⟩, rfl⟩ := hi
  rw [(formatIssue_type _).1, (formatIssue_type _).2]
  by_cases h : e.toFinding.impact = some "critical"
  · left; exact ⟨by rw [if_pos h], h⟩
  · right; exact ⟨by rw [if_neg h], h⟩

/-- C30: every formatted issue has the type `critical` when the impact is `critical` and
`warning` otherwise, never `info`; so the filter `info` gives the empty list, and the lists of
the filters `critical` and `warning` together hold every issue exactly once, whatever the sort
order. -/
theorem issue_types_partition (localeLe : String → String → Bool)
    (websiteUrl scanTime : String) (report : Report) (sortBy : String) :
    (∀ i ∈ (formatResults websiteUrl scanTime report).issues,
      (i.type = "critical" ∨ i.type = "warning") ∧ i.type ≠ "info" ∧
        (i.type = "critical" ↔ i.impact = some "critical")) ∧
    filteredIssues localeLe (some (formatResults websiteUrl scanTime report).issues) "info"
        sortBy = [] ∧
    (filteredIssues localeLe (some (formatResults websiteUrl scanTime report).issues)
          "critical" sortBy ++
        filteredIssues localeLe (some (formatResults websiteUrl scanTime report).issues)
          "warning" sortBy).Perm
      (formatResults websiteUrl scanTime report).issues := by
  have hcw : ("critical" : String) ≠ "warning" := by decide
  have hci : ("critical" : String) ≠ "info" := by decide
  have hwi : ("warning" : String) ≠ "info" := by decide
  have hcases := issue_type_cases websiteUrl scanTime report
  generalize (formatResults websiteUrl scanTime report).issues = issues at hcases ⊢
  refine ⟨?_, ?_, ?_⟩
  · intro i hi
    rcases hcases i hi with ⟨ht, himp⟩ | ⟨ht, himp⟩
    · exact ⟨Or.inl ht, by rw [ht]; exact hci, fun _ => himp, fun _ => ht⟩
    · refine ⟨Or.inr ht, by rw [ht]; exact hwi, fun h => ?_, fun h => absurd h himp⟩
      rw [ht] at h
      exact absurd h.symm hcw
  · have hempty : issues.filter (fun issue => issue.type == "info") = [] := by
      rw [List.filter_eq_nil_iff]
      intro i hi
      rcases hcases i hi with ⟨ht, _⟩ | ⟨ht, _⟩
      · simp [ht]
      · simp [ht]
    simp [filteredIssues, hempty]
  · have hwarn : issues.filter (fun issue => issue.type == "warning") =
        issues.filter (fun issue => !(issue.type == "critical")) := by
      apply List.filter_congr
      intro i hi
      rcases hcases i hi with ⟨ht, _⟩ | ⟨ht, _⟩
      · simp [ht]
      · simp [ht]
    have h1 : (filteredIssues localeLe (some issues) "critical" sortBy).Perm
        (issues.filter (fun issue => issue.type == "critical")) := by
      simp only [filteredIssues]
      rw [if_pos (by decide)]
      exact List.perm_insertionSort _ _
    have h2 : (filteredIssues localeLe (some issues) "warning" sortBy).Perm
        (issues.filter (fun issue => !(issue.type == "critical"))) := by
      simp only [filteredIssues]
      rw [if_pos (by decide), hwarn]
      exact List.perm_insertionSort _ _
    exact (h1.append h2).trans (List.filter_append_perm _ _)

end AccessibilityAnalyzer
